import Mathlib

/-!
Verification development for the StructLayout clang parser
(`src/Parsers/ClangLayout/src/Parser.cpp`).

The C++ core is shallowly embedded:

* `FileState` models the process-wide pair `g_result.files` /
  `g_filenameLookup` (the `unordered_map` is modelled as an association
  list keyed by `clang::FileID::getHashValue()`, which is injective on
  file ids within a run).
* `addFileToDictionary` embeds `ClangParser::Helpers::AddFileToDictionary`.
* `retrieveLocation` embeds `ClangParser::Helpers::RetrieveLocation`;
  the in-out `Layout::Location& output` parameter is modelled as an
  `Option SourceIndex` result (`none` = the output was left unset, which
  is faithful because every call site passes a freshly default-initialised
  location).
* `clearResult` embeds `ClangParser::Helpers::ClearResult` acting on the
  process-wide state `GlobalState`.
* `computeStruct` embeds `ClangParser::Helpers::ComputeStruct`, with the
  clang AST / ABI collaborators (`CXXRecordDecl`, `ASTRecordLayout`,
  `TargetInfo`) abstracted as the data carried by `RecordDecl` / `Ctx`.
* `locate` embeds `FindStructAtLocationVisitor` (`TryRecord` plus the
  fold over all visited candidates).

Byte quantities (`clang::CharUnits`) are `Int`; bit quantities are `Nat`;
`toCharUnitsFromBits` is division by 8 (`CharWidth = 8`).
-/

/-- A presumed source position (`clang::PresumedLoc` line/column). -/
structure SourceIndex where
  fileIndex : Nat
  line : Nat
  column : Nat
  deriving DecidableEq, Repr

/-- Abstraction of a `clang::SourceLocation` together with the facts the
source manager reports about it: validity, the presumed location's
validity, the presumed file id's validity, the file id hash, filename,
line and column. -/
structure SrcLoc where
  valid : Bool
  presumedValid : Bool
  fileIdValid : Bool
  fileId : Nat
  filename : String
  line : Nat
  column : Nat
  deriving DecidableEq, Repr

/-- The file-table part of the process-wide state: `g_result.files`
(ordered filename list) and `g_filenameLookup` (file-id hash to index,
modelled as an association list). -/
structure FileState where
  files : List String
  lookup : List (Nat × Nat)
  deriving DecidableEq, Repr

def FileState.empty : FileState := ⟨[], []⟩

/-- Association-list lookup (models `unordered_map::insert`'s found-key
case: the map returns the previously stored value for the key). -/
def lookupAssoc : List (Nat × Nat) → Nat → Option Nat
  | [], _ => none
  | (k, v) :: rest, key => if k == key then some v else lookupAssoc rest key

/-- Embeds `ClangParser::Helpers::AddFileToDictionary` (Parser.cpp:70-79):
if the file id was inserted before, return its stored index and leave the
state alone; otherwise record `files.size()` for it and append the
filename. -/
def addFileToDictionary (fileId : Nat) (filename : String) (st : FileState) :
    Nat × FileState :=
  let nextIndex := st.files.length
  match lookupAssoc st.lookup fileId with
  | some existing => (existing, st)
  | none =>
    (nextIndex, ⟨st.files ++ [filename], st.lookup ++ [(fileId, nextIndex)]⟩)

/-- Embeds `ClangParser::Helpers::RetrieveLocation` (Parser.cpp:81-95).
Returns `none` (output left unset) for an invalid location or an
unresolvable presumed location / file id; otherwise interns the file and
returns the index with the presumed line and column. -/
def retrieveLocation (loc : SrcLoc) (st : FileState) :
    Option SourceIndex × FileState :=
  if !loc.valid then (none, st)
  else if !loc.presumedValid || !loc.fileIdValid then (none, st)
  else
    let r := addFileToDictionary loc.fileId loc.filename st
    (some ⟨r.1, loc.line, loc.column⟩, r.2)

/-- `Layout::Category` (from `LayoutDefinitions.h`, which is not part of
the provided sources; the constructor set is exactly the set of values
`Parser.cpp` assigns, plus the default used for the root node and the
bitfield extra node, which the spec names `RootOrComplexField` and which
is therefore modelled as `ComplexField`). -/
inductive Category where
  | ComplexField
  | SimpleField
  | Bitfield
  | NVBase
  | NVPrimaryBase
  | VBase
  | VPrimaryBase
  | VTablePtr
  | VFTablePtr
  | VBTablePtr
  | VtorDisp
  deriving DecidableEq, Repr

/-- The non-recursive payload of a `Layout::Node`; default values are
those of a freshly constructed node. -/
structure NodeData where
  name : String := ""
  typeName : String := ""
  nature : Category := Category.ComplexField
  offset : Int := 0
  size : Int := 0
  align : Int := 0
  typeLocation : Option SourceIndex := none
  fieldLocation : Option SourceIndex := none
  deriving DecidableEq, Repr

/-- `Layout::Node`: payload plus owned children. -/
inductive Node where
  | mk (data : NodeData) (children : List Node)

def Node.data : Node → NodeData
  | .mk d _ => d

def Node.children : Node → List Node
  | .mk _ cs => cs

/-- The process-wide state touched by `ClearResult` (Parser.cpp:62-68):
the filename lookup map, the result tree and the result file table. -/
structure GlobalState where
  filenameLookup : List (Nat × Nat)
  resultNode : Option Node
  resultFiles : List String

/-- Embeds `ClangParser::Helpers::ClearResult` (Parser.cpp:62-68): clears
the lookup map, destroys the tree (`rootNode` becomes null) and clears the
file list. -/
def clearResult (_s : GlobalState) : GlobalState :=
  { filenameLookup := [], resultNode := none, resultFiles := [] }

/-- Target facts consumed by `ComputeStruct` (`clang::TargetInfo` plus the
ABI kind check `getCXXABI().isMicrosoft()`). -/
structure Ctx where
  pointerWidthBits : Nat
  pointerAlignBits : Nat
  isMicrosoft : Bool
  deriving DecidableEq, Repr

mutual

/-- Abstraction of a `clang::CXXRecordDecl` together with the facts the
`clang::ASTRecordLayout` collaborator reports for it. `id` models the
declaration's pointer identity (used for the `base == primaryBase`
comparisons); `primaryBaseId` is `layout.getPrimaryBase()` (`none` for a
null primary base). `size`, `nvSize`, `align` and the per-base offsets
are byte quantities (`CharUnits`); field offsets are bit quantities. -/
inductive RecordDecl where
  | mk (id : Nat) (qualifiedName : String) (loc : SrcLoc)
       (isDynamicClass : Bool)
       (size nvSize align : Int)
       (primaryBaseId : Option Nat)
       (hasOwnVFPtr hasOwnVBPtr : Bool) (vbptrOffset : Int)
       (bases : List BaseSpec) (fields : List FieldEntry)
       (vbases : List VBaseSpec)

/-- A `clang::CXXBaseSpecifier` from `declaration->bases()`, paired with
the ABI's `getBaseClassOffset` for its class (a function of the base
declaration, recorded here per entry). -/
inductive BaseSpec where
  | mk (isVirtual : Bool) (decl : RecordDecl) (offset : Int)

/-- An entry of `declaration->vbases()`, paired with the ABI's
`getVBaseClassOffset` and the `hasVtorDisp()` flag from the
`VBaseOffsetsMap`. -/
inductive VBaseSpec where
  | mk (decl : RecordDecl) (offset : Int) (hasVtorDisp : Bool)

/-- A `clang::FieldDecl` in declaration order, paired with the layout's
`getFieldOffset` bit offset. -/
inductive FieldEntry where
  | mk (name : String) (typeName : String) (loc : SrcLoc)
       (offsetBits : Nat) (kind : FieldKind)

/-- The classification `ComputeStruct` performs on a field's type:
`recordType` when `getAsCXXRecordDecl()` is non-null, otherwise
`scalarType` with `getTypeInfo`'s bit width/alignment and
`some bitWidth` exactly when `isBitField()`. -/
inductive FieldKind where
  | recordType (decl : RecordDecl)
  | scalarType (widthBits alignBits : Nat) (bitWidth : Option Nat)

end

def RecordDecl.id : RecordDecl → Nat
  | .mk i _ _ _ _ _ _ _ _ _ _ _ _ _ => i

def RecordDecl.qualifiedName : RecordDecl → String
  | .mk _ q _ _ _ _ _ _ _ _ _ _ _ _ => q

def RecordDecl.loc : RecordDecl → SrcLoc
  | .mk _ _ l _ _ _ _ _ _ _ _ _ _ _ => l

def RecordDecl.isDynamicClass : RecordDecl → Bool
  | .mk _ _ _ d _ _ _ _ _ _ _ _ _ _ => d

def RecordDecl.size : RecordDecl → Int
  | .mk _ _ _ _ s _ _ _ _ _ _ _ _ _ => s

def RecordDecl.nvSize : RecordDecl → Int
  | .mk _ _ _ _ _ n _ _ _ _ _ _ _ _ => n

def RecordDecl.align : RecordDecl → Int
  | .mk _ _ _ _ _ _ a _ _ _ _ _ _ _ => a

def RecordDecl.primaryBaseId : RecordDecl → Option Nat
  | .mk _ _ _ _ _ _ _ p _ _ _ _ _ _ => p

def RecordDecl.hasOwnVFPtr : RecordDecl → Bool
  | .mk _ _ _ _ _ _ _ _ f _ _ _ _ _ => f

def RecordDecl.hasOwnVBPtr : RecordDecl → Bool
  | .mk _ _ _ _ _ _ _ _ _ b _ _ _ _ => b

def RecordDecl.vbptrOffset : RecordDecl → Int
  | .mk _ _ _ _ _ _ _ _ _ _ v _ _ _ => v

def RecordDecl.bases : RecordDecl → List BaseSpec
  | .mk _ _ _ _ _ _ _ _ _ _ _ b _ _ => b

def RecordDecl.fields : RecordDecl → List FieldEntry
  | .mk _ _ _ _ _ _ _ _ _ _ _ _ f _ => f

def RecordDecl.vbases : RecordDecl → List VBaseSpec
  | .mk _ _ _ _ _ _ _ _ _ _ _ _ _ v => v

def BaseSpec.isVirtual : BaseSpec → Bool
  | .mk v _ _ => v

def BaseSpec.decl : BaseSpec → RecordDecl
  | .mk _ d _ => d

def BaseSpec.offset : BaseSpec → Int
  | .mk _ _ o => o

def VBaseSpec.decl : VBaseSpec → RecordDecl
  | .mk d _ _ => d

def VBaseSpec.offset : VBaseSpec → Int
  | .mk _ o _ => o

def VBaseSpec.hasVtorDisp : VBaseSpec → Bool
  | .mk _ _ h => h

def FieldEntry.name : FieldEntry → String
  | .mk n _ _ _ _ => n

def FieldEntry.typeName : FieldEntry → String
  | .mk _ t _ _ _ => t

def FieldEntry.loc : FieldEntry → SrcLoc
  | .mk _ _ l _ _ => l

def FieldEntry.offsetBits : FieldEntry → Nat
  | .mk _ _ _ o _ => o

def FieldEntry.kind : FieldEntry → FieldKind
  | .mk _ _ _ _ k => k

/-- `toCharUnitsFromBits`: bit quantity to byte quantity
(`CharWidth = 8`). -/
def bitsToBytes (bits : Nat) : Int := ((bits / 8 : Nat) : Int)

/-- A vtable / vftable / vbtable pointer node: size and alignment come
from the target's pointer width and alignment (Parser.cpp:117-121,
127-131, 163-167). -/
def mkTablePtrNode (ctx : Ctx) (cat : Category) (off : Int) : Node :=
  Node.mk { nature := cat, offset := off
            size := bitsToBytes ctx.pointerWidthBits
            align := bitsToBytes ctx.pointerAlignBits } []

/-- The comparison `llvm::stable_sort` is given in Parser.cpp:148, as the
non-strict ordering used by the (stable) `List.mergeSort`: a stable sort
with strict comparator `lhs.offset < rhs.offset` produces the same list
as a stable merge sort with `lhs.offset ≤ rhs.offset`. -/
def baseLE (a b : BaseSpec) : Bool := decide (a.offset ≤ b.offset)

mutual

/-- Embeds `ClangParser::Helpers::ComputeStruct` (Parser.cpp:97-267),
threading the file-table state through every `RetrieveLocation` call in
the order the C++ performs them. -/
def computeStruct (ctx : Ctx) (decl : RecordDecl)
    (includeVirtualBases : Bool) (st : FileState) : Node × FileState :=
  match decl with
  | .mk _ qname loc isDyn size nvsize align primaryId hasVF hasVB vbOff
      bases fields vbases =>
    let r0 := retrieveLocation loc st
    let vptrList : List Node :=
      if isDyn && primaryId.isNone && !ctx.isMicrosoft then
        [mkTablePtrNode ctx Category.VTablePtr 0]
      else if hasVF then
        [mkTablePtrNode ctx Category.VFTablePtr 0]
      else []
    let sortedNV := List.mergeSort
      (List.filter (fun b => !b.isVirtual) bases) baseLE
    let r1 := computeBaseList ctx primaryId sortedNV r0.2
    let vbptrList : List Node :=
      if hasVB then [mkTablePtrNode ctx Category.VBTablePtr vbOff] else []
    let r2 := computeFieldList ctx fields r1.2
    let r3 := if includeVirtualBases then
        computeVBaseList ctx primaryId vbases r2.2
      else ([], r2.2)
    (Node.mk { typeName := qname
               size := if includeVirtualBases then size else nvsize
               align := align
               typeLocation := r0.1 }
       (vptrList ++ r1.1 ++ vbptrList ++ r2.1 ++ r3.1), r3.2)
termination_by sizeOf decl
decreasing_by
  · have h2 : ∀ (l : List BaseSpec),
        sizeOf (List.filter (fun b => !b.isVirtual) l) ≤ sizeOf l := by
      intro l
      induction l with
      | nil => simp
      | cons hd tl ih =>
        rw [List.filter_cons]
        split
        · simp only [List.cons.sizeOf_spec]
          omega
        · simp only [List.cons.sizeOf_spec]
          omega
    have key : ∀ (l : List BaseSpec),
        sizeOf (List.mergeSort (List.filter (fun b => !b.isVirtual) l)
          baseLE) ≤ sizeOf l := by
      intro l
      have h1 := (List.mergeSort_perm
        (List.filter (fun b => !b.isVirtual) l) baseLE).sizeOf_eq_sizeOf
      have h3 := h2 l
      omega
    simp_wf
    exact Nat.lt_of_le_of_lt (key _) (by omega)
  all_goals simp_wf
  all_goals omega

/-- The non-virtual-base loop (Parser.cpp:151-157): recurse with
`includeVirtualBases = false`, overwrite the offset with the ABI base
offset and the nature with the primary-base check. -/
def computeBaseList (ctx : Ctx) (primaryId : Option Nat) :
    List BaseSpec → FileState → List Node × FileState
  | [], st => ([], st)
  | .mk _ d off :: rest, st =>
    let r := computeStruct ctx d false st
    let baseNode := Node.mk
      { r.1.data with
          offset := off
          nature := if some d.id == primaryId then Category.NVPrimaryBase
                    else Category.NVBase }
      r.1.children
    let rr := computeBaseList ctx primaryId rest r.2
    (baseNode :: rr.1, rr.2)
termination_by l => sizeOf l
decreasing_by
  all_goals simp_wf
  all_goals omega

/-- The field loop (Parser.cpp:172-234). -/
def computeFieldList (ctx : Ctx) :
    List FieldEntry → FileState → List Node × FileState
  | [], st => ([], st)
  | .mk fname ftype floc offBits kind :: rest, st =>
    match kind with
    | .recordType r =>
      let rc := computeStruct ctx r true st
      let rl := retrieveLocation floc rc.2
      let fieldNode := Node.mk
        { rc.1.data with
            name := fname
            typeName := ftype
            offset := bitsToBytes offBits
            nature := Category.ComplexField
            fieldLocation := rl.1 }
        rc.1.children
      let rr := computeFieldList ctx rest rl.2
      (fieldNode :: rr.1, rr.2)
    | .scalarType widthBits alignBits bitInfo =>
      match bitInfo with
      | some bw =>
        let extraData := Node.mk
          { offset := (offBits : Int) - 8 * bitsToBytes offBits
            size := (bw : Int) } []
        let fieldNode := Node.mk
          { name := fname, typeName := ftype
            nature := Category.Bitfield
            offset := bitsToBytes offBits
            size := bitsToBytes widthBits
            align := bitsToBytes alignBits }
          [extraData]
        let rr := computeFieldList ctx rest st
        (fieldNode :: rr.1, rr.2)
      | none =>
        let rl := retrieveLocation floc st
        let fieldNode := Node.mk
          { name := fname, typeName := ftype
            nature := Category.SimpleField
            offset := bitsToBytes offBits
            size := bitsToBytes widthBits
            align := bitsToBytes alignBits
            fieldLocation := rl.1 } []
        let rr := computeFieldList ctx rest rl.2
        (fieldNode :: rr.1, rr.2)
termination_by l => sizeOf l
decreasing_by
  all_goals simp_wf
  all_goals omega

/-- The virtual-base loop (Parser.cpp:239-263): an optional 4-byte
vtordisp node at `offset - 4`, then the base built with
`includeVirtualBases = false` at the ABI virtual-base offset. -/
def computeVBaseList (ctx : Ctx) (primaryId : Option Nat) :
    List VBaseSpec → FileState → List Node × FileState
  | [], st => ([], st)
  | .mk d off disp :: rest, st =>
    let head : List Node :=
      if disp then
        [Node.mk { nature := Category.VtorDisp, offset := off - 4
                   size := 4, align := 4 } []]
      else []
    let r := computeStruct ctx d false st
    let vbNode := Node.mk
      { r.1.data with
          offset := off
          nature := if some d.id == primaryId then Category.VPrimaryBase
                    else Category.VBase }
      r.1.children
    let rr := computeVBaseList ctx primaryId rest r.2
    (head ++ vbNode :: rr.1, rr.2)
termination_by l => sizeOf l
decreasing_by
  all_goals simp_wf
  all_goals omega

end

/-- `ClangParser::LocationFilter`. -/
structure LocationFilter where
  row : Nat
  col : Nat
  deriving DecidableEq, Repr

/-- One invocation of `FindStructAtLocationVisitor::TryRecord`
(Parser.cpp:303-325): the declaration argument's eligibility facts
(null check, `isDependentType`, `getDefinition`, `isInvalidDecl`,
`isCompleteDefinition`) together with the presumed start/end positions
of the source range passed alongside it. -/
structure Candidate where
  hasDecl : Bool
  isDependentType : Bool
  hasDefinition : Bool
  isInvalidDecl : Bool
  isCompleteDefinition : Bool
  startLine : Nat
  startCol : Nat
  endLine : Nat
  endCol : Nat
  deriving DecidableEq, Repr

/-- The null-and-flags eligibility test at Parser.cpp:305. -/
def eligible (c : Candidate) : Bool :=
  c.hasDecl && !c.isDependentType && c.hasDefinition &&
    !c.isInvalidDecl && c.isCompleteDefinition

/-- The visitor's mutable fields `m_best`, `m_bestStartLine`,
`m_bestStartCol`. -/
structure VisitorState where
  best : Option Candidate
  bestStartLine : Nat
  bestStartCol : Nat
  deriving DecidableEq, Repr

/-- Embeds the body of `TryRecord` (Parser.cpp:303-325). -/
def tryRecord (flt : LocationFilter) (s : VisitorState) (c : Candidate) :
    VisitorState :=
  if eligible c then
    if (flt.row > c.startLine ∨ (flt.row = c.startLine ∧ flt.col ≥ c.startCol)) ∧
       (flt.row < c.endLine ∨ (flt.row = c.endLine ∧ flt.col ≤ c.endCol)) ∧
       (c.startLine > s.bestStartLine ∨
         (c.startLine = s.bestStartLine ∧ c.startCol > s.bestStartCol))
    then ⟨some c, c.startLine, c.startCol⟩
    else s
  else s

/-- The declaration locator: the visitor starts from
`{nullptr, 0, 0}` (Parser.cpp:274-280) and folds `TryRecord` over every
candidate the traversal feeds it, returning `m_best`. -/
def locate (flt : LocationFilter) (cs : List Candidate) : Option Candidate :=
  (cs.foldl (tryRecord flt) ⟨none, 0, 0⟩).best

/-- The containment test of Parser.cpp:316-317: the filter position lies
in `[start, end]`, both comparisons lexicographic by (line, column). -/
def containsPos (flt : LocationFilter) (c : Candidate) : Prop :=
  (flt.row > c.startLine ∨ (flt.row = c.startLine ∧ flt.col ≥ c.startCol)) ∧
  (flt.row < c.endLine ∨ (flt.row = c.endLine ∧ flt.col ≤ c.endCol))

instance (flt : LocationFilter) (c : Candidate) :
    Decidable (containsPos flt c) := by
  unfold containsPos
  infer_instance

/-- Lexicographic (line, column) comparison, non-strict. -/
def lexLE (a b : Nat × Nat) : Prop :=
  a.1 < b.1 ∨ (a.1 = b.1 ∧ a.2 ≤ b.2)

instance (a b : Nat × Nat) : Decidable (lexLE a b) := by
  unfold lexLE
  infer_instance

/-- The (line, column) start position of a candidate. -/
def startPos (c : Candidate) : Nat × Nat := (c.startLine, c.startCol)

mutual

/-- All nodes of a layout tree: the node itself and, recursively, every
node below it. -/
def Node.subnodes : Node → List Node
  | .mk d cs => Node.mk d cs :: subnodesList cs

def subnodesList : List Node → List Node
  | [] => []
  | n :: rest => n.subnodes ++ subnodesList rest

end

/-- Generic quadratic pairwise check (`Bool` analogue of
`List.Pairwise`). -/
def pairwiseB (r : α → α → Bool) : List α → Bool
  | [] => true
  | a :: rest => rest.all (r a) && pairwiseB r rest

/-- The smallest offset a virtual-base entry emits a node at: the
vtordisp node's `offset - 4` when present, else the base's own offset. -/
def vbStart (v : VBaseSpec) : Int :=
  v.offset - (if v.hasVtorDisp then 4 else 0)

/-- The byte offset of a field (its ABI bit offset converted to bytes,
Parser.cpp:177). -/
def fieldByteOff (f : FieldEntry) : Int := bitsToBytes f.offsetBits

mutual

/-- A sufficient ordering condition on the layout facts a record carries
under which the fixed emission order of `ComputeStruct` (table pointers,
offset-sorted non-virtual bases, vbtable pointer, fields in declaration
order, virtual bases in declaration order) happens to be
offset-ascending: base offsets are non-negative and no later emission
group starts before an earlier one ends up placed. Plain layouts satisfy
it, but real layouts need not: a primary virtual base is placed at
offset 0 below positive field offsets, and empty non-virtual bases can
be bumped past field offsets, and then the children — which
`ComputeStruct` never sorts — keep pure emission order and are not
offset-sorted. The same condition is required recursively of every
nested record. -/
def coherent : RecordDecl → Bool
  | .mk _ _ _ _ _ _ _ _ _ hasVB vbOff bases fields vbases =>
    let nv := List.filter (fun b => !b.isVirtual) bases
    nv.all (fun b => decide (0 ≤ b.offset)) &&
    (!hasVB || (decide (0 ≤ vbOff) &&
      nv.all (fun b => decide (b.offset ≤ vbOff)) &&
      fields.all (fun f => decide (vbOff ≤ fieldByteOff f)) &&
      vbases.all (fun v => decide (vbOff ≤ vbStart v)))) &&
    nv.all (fun b => fields.all (fun f => decide (b.offset ≤ fieldByteOff f))) &&
    nv.all (fun b => vbases.all (fun v => decide (b.offset ≤ vbStart v))) &&
    pairwiseB (fun f g => decide (fieldByteOff f ≤ fieldByteOff g)) fields &&
    fields.all (fun f => vbases.all (fun v => decide (fieldByteOff f ≤ vbStart v))) &&
    vbases.all (fun v => decide (0 ≤ vbStart v)) &&
    pairwiseB (fun v w => decide (v.offset ≤ vbStart w)) vbases &&
    coherentBaseList bases && coherentFieldList fields &&
    coherentVBaseList vbases

def coherentBaseList : List BaseSpec → Bool
  | [] => true
  | .mk _ d _ :: rest => coherent d && coherentBaseList rest

def coherentFieldList : List FieldEntry → Bool
  | [] => true
  | .mk _ _ _ _ kind :: rest =>
    (match kind with
     | .recordType d => coherent d
     | .scalarType _ _ _ => true) && coherentFieldList rest

def coherentVBaseList : List VBaseSpec → Bool
  | [] => true
  | .mk d _ _ :: rest => coherent d && coherentVBaseList rest

end

/-- A straight-line run of the File Table: `intern` each
`(fileIdentity, filename)` pair in order (claim C8's "sequence of intern
calls within one run"). -/
def runInterns : List (Nat × String) → FileState → FileState
  | [], st => st
  | (k, fn) :: rest, st => runInterns rest (addFileToDictionary k fn st).2

/-- The vtable / vftable pointer part of a node's children
(Parser.cpp:114-133): a `VTablePtr` node for a dynamic class with no
primary base outside the Microsoft ABI, else a `VFTablePtr` node when
the layout reports an own vftable pointer, else nothing. -/
def vptrNodes (ctx : Ctx) (d : RecordDecl) : List Node :=
  if d.isDynamicClass && d.primaryBaseId.isNone && !ctx.isMicrosoft then
    [mkTablePtrNode ctx Category.VTablePtr 0]
  else if d.hasOwnVFPtr then
    [mkTablePtrNode ctx Category.VFTablePtr 0]
  else []

/-- The vbtable pointer part of a node's children (Parser.cpp:160-169). -/
def vbptrNodes (ctx : Ctx) (d : RecordDecl) : List Node :=
  if d.hasOwnVBPtr then
    [mkTablePtrNode ctx Category.VBTablePtr d.vbptrOffset]
  else []

/-- The record's direct non-virtual bases, stable-sorted by ABI base
offset (Parser.cpp:136-148). -/
def nvSorted (d : RecordDecl) : List BaseSpec :=
  List.mergeSort (d.bases.filter (fun b => !b.isVirtual)) baseLE

/-- The file state after the root `RetrieveLocation` call of
`ComputeStruct`. -/
def stAfterLoc (d : RecordDecl) (st : FileState) : FileState :=
  (retrieveLocation d.loc st).2

/-- The file state after the non-virtual-base loop of `ComputeStruct`. -/
def stAfterBases (ctx : Ctx) (d : RecordDecl) (st : FileState) : FileState :=
  (computeBaseList ctx d.primaryBaseId (nvSorted d) (stAfterLoc d st)).2

/-- The file state after the field loop of `ComputeStruct`. -/
def stAfterFields (ctx : Ctx) (d : RecordDecl) (st : FileState) : FileState :=
  (computeFieldList ctx d.fields (stAfterBases ctx d st)).2

/-- The `eligible ∧ contains` test a candidate must pass to become the
visitor's best match. -/
def goodMatch (flt : LocationFilter) (c : Candidate) : Prop :=
  eligible c = true ∧ containsPos flt c

instance (flt : LocationFilter) (c : Candidate) :
    Decidable (goodMatch flt c) := by
  unfold goodMatch
  infer_instance

/-- Invariant of the visitor state after `TryRecord` has processed a
list of candidates: an empty best means nothing matched yet (and the
sentinel (0,0) start is still in place); a present best is a processed
matching candidate whose start is the sentinel-or-latest start seen, is
greatest among all processed matches, and is the first processed match
carrying that start. -/
def visitorInv (flt : LocationFilter) (processed : List Candidate)
    (s : VisitorState) : Prop :=
  (s.best = none →
    s.bestStartLine = 0 ∧ s.bestStartCol = 0 ∧
      ∀ c ∈ processed, ¬goodMatch flt c) ∧
  (∀ b, s.best = some b →
    goodMatch flt b ∧ b ∈ processed ∧
      startPos b = (s.bestStartLine, s.bestStartCol) ∧
      (∀ c ∈ processed, goodMatch flt c → lexLE (startPos c) (startPos b)) ∧
      processed.find?
        (fun c => decide (goodMatch flt c ∧ startPos c = startPos b)) = some b)

/-- Claim C9: the Driver's reset (`ClearResult`) is idempotent: after one call,
and after two consecutive calls, from any starting state, the root node
is absent, the file table is empty and the filename-lookup table is
empty. -/
theorem clearResult_idempotent (s : GlobalState) :
    (clearResult s).resultNode = none ∧
    (clearResult s).resultFiles = [] ∧
    (clearResult s).filenameLookup = [] ∧
    clearResult (clearResult s) = clearResult s ∧
    (clearResult (clearResult s)).resultNode = none ∧
    (clearResult (clearResult s)).resultFiles = [] ∧
    (clearResult (clearResult s)).filenameLookup = [] := by
  refine ⟨rfl, rfl, rfl, rfl, rfl, rfl, rfl⟩

/-- Claim C7: `RetrieveLocation` leaves the output unset and returns without
error when the source location is invalid or its presumed location/file
is unresolvable; otherwise it interns the presumed file and fills the
output with that file's index and the presumed line and column. -/
theorem retrieveLocation_spec (loc : SrcLoc) (st : FileState) :
    ((loc.valid = false ∨ loc.presumedValid = false ∨
        loc.fileIdValid = false) →
      retrieveLocation loc st = (none, st)) ∧
    (loc.valid = true → loc.presumedValid = true → loc.fileIdValid = true →
      retrieveLocation loc st =
        (some ⟨(addFileToDictionary loc.fileId loc.filename st).1,
               loc.line, loc.column⟩,
         (addFileToDictionary loc.fileId loc.filename st).2)) := by
  constructor
  · rintro (h | h | h) <;> simp [retrieveLocation, h]
  · intro h1 h2 h3
    simp [retrieveLocation, h1, h2, h3]

/-- Witness for C7 at concrete inputs: an invalid location leaves the
state alone and produces no position; a valid one interns the file and
produces `(index 0, line 3, column 7)`. -/
theorem retrieveLocation_spec_witness :
    (retrieveLocation ⟨false, true, true, 5, "a.h", 3, 7⟩ FileState.empty
        = (none, FileState.empty)) ∧
    (retrieveLocation ⟨true, true, true, 5, "a.h", 3, 7⟩ FileState.empty
        = (some ⟨0, 3, 7⟩, ⟨["a.h"], [(5, 0)]⟩)) := by
  constructor
  · exact (retrieveLocation_spec ⟨false, true, true, 5, "a.h", 3, 7⟩
      FileState.empty).1 (Or.inl rfl)
  · have h := (retrieveLocation_spec ⟨true, true, true, 5, "a.h", 3, 7⟩
      FileState.empty).2 rfl rfl rfl
    simpa [addFileToDictionary, lookupAssoc, FileState.empty] using h

theorem addFile_found {st : FileState} {k i : Nat} (fn : String)
    (h : lookupAssoc st.lookup k = some i) :
    addFileToDictionary k fn st = (i, st) := by
  simp [addFileToDictionary, h]

theorem addFile_fresh {st : FileState} {k : Nat} (fn : String)
    (h : lookupAssoc st.lookup k = none) :
    addFileToDictionary k fn st =
      (st.files.length,
       ⟨st.files ++ [fn], st.lookup ++ [(k, st.files.length)]⟩) := by
  simp [addFileToDictionary, h]

theorem lookupAssoc_append (l1 l2 : List (Nat × Nat)) (k : Nat) :
    lookupAssoc (l1 ++ l2) k =
      ((lookupAssoc l1 k).rec (lookupAssoc l2 k) (fun i => some i)) := by
  induction l1 with
  | nil => simp [lookupAssoc]
  | cons p rest ih =>
    obtain ⟨k', v⟩ := p
    by_cases h : k' == k <;> simp [lookupAssoc, h, ih]

theorem lookupAssoc_addFile_self (st : FileState) (k : Nat) (fn : String) :
    lookupAssoc ((addFileToDictionary k fn st).2).lookup k
      = some ((addFileToDictionary k fn st).1) := by
  cases h : lookupAssoc st.lookup k with
  | some i => rw [addFile_found fn h]; exact h
  | none =>
    rw [addFile_fresh fn h]
    rw [lookupAssoc_append, h]
    simp [lookupAssoc]

theorem lookupAssoc_addFile_preserved {st : FileState} {k i : Nat}
    (h : lookupAssoc st.lookup k = some i) (k' : Nat) (fn : String) :
    lookupAssoc ((addFileToDictionary k' fn st).2).lookup k = some i := by
  cases h' : lookupAssoc st.lookup k' with
  | some j => rw [addFile_found fn h']; exact h
  | none =>
    rw [addFile_fresh fn h']
    rw [lookupAssoc_append, h]

theorem lookupAssoc_runInterns_preserved {st : FileState} {k i : Nat}
    (h : lookupAssoc st.lookup k = some i) (calls : List (Nat × String)) :
    lookupAssoc ((runInterns calls st).lookup) k = some i := by
  induction calls generalizing st with
  | nil => exact h
  | cons c rest ih =>
    obtain ⟨k', fn⟩ := c
    exact ih (lookupAssoc_addFile_preserved h k' fn)

theorem runInterns_files_length (calls : List (Nat × String)) :
    ∀ st : FileState,
      (runInterns calls st).files.length =
        st.files.length +
          ((calls.map Prod.fst).filter
            (fun k => (lookupAssoc st.lookup k).isNone)).toFinset.card := by
  induction calls with
  | nil => intro st; simp [runInterns]
  | cons c rest ih =>
    intro st
    obtain ⟨k, fn⟩ := c
    simp only [runInterns, List.map_cons, List.filter_cons]
    cases h : lookupAssoc st.lookup k with
    | some i =>
      rw [addFile_found fn h, ih st]
      simp [h]
    | none =>
      rw [addFile_fresh fn h, ih _]
      have hpred : ∀ k' : Nat,
          (lookupAssoc (st.lookup ++ [(k, st.files.length)]) k').isNone
            = ((lookupAssoc st.lookup k').isNone && !(k == k')) := by
        intro k'
        rw [lookupAssoc_append]
        cases h' : lookupAssoc st.lookup k' <;>
          by_cases hk : k == k' <;> simp_all [lookupAssoc]
      simp only [h, Option.isNone_none, List.length_append, List.length_cons,
        List.length_nil]
      have hfe : (List.filter
            (fun k' => (lookupAssoc (st.lookup ++ [(k, st.files.length)]) k').isNone)
            (rest.map Prod.fst))
          = List.filter (fun k' => !(k == k'))
              (List.filter (fun k' => (lookupAssoc st.lookup k').isNone)
                (rest.map Prod.fst)) := by
        rw [List.filter_filter]
        apply List.filter_congr
        intro x _
        rw [hpred x]
        rw [Bool.and_comm]
      rw [hfe]
      have hts : (List.filter (fun k' => !(k == k'))
            (List.filter (fun k' => (lookupAssoc st.lookup k').isNone)
              (rest.map Prod.fst))).toFinset
          = ((List.filter (fun k' => (lookupAssoc st.lookup k').isNone)
              (rest.map Prod.fst)).toFinset).filter (fun x => k ≠ x) := by
        rw [List.toFinset_filter]
        apply Finset.filter_congr
        intro x _
        simp
      rw [hts, Finset.filter_ne]
      have hins : (List.toFinset
            (k :: List.filter (fun k' => (lookupAssoc st.lookup k').isNone)
              (rest.map Prod.fst)))
          = insert k (List.filter (fun k' => (lookupAssoc st.lookup k').isNone)
              (rest.map Prod.fst)).toFinset := List.toFinset_cons
      rw [if_pos trivial, hins]
      set S := (List.filter (fun k' => (lookupAssoc st.lookup k').isNone)
        (rest.map Prod.fst)).toFinset with hS
      by_cases hmem : k ∈ S
      · rw [Finset.card_erase_of_mem hmem, Finset.insert_eq_self.mpr hmem]
        have hpos : 0 < S.card := Finset.card_pos.mpr ⟨k, hmem⟩
        omega
      · rw [Finset.erase_eq_of_not_mem hmem, Finset.card_insert_of_not_mem hmem]
        omega

/-- Claim C8: within one run, `intern` (`AddFileToDictionary`) returns the index
assigned by the first intern of the same file identity, leaving the table
unchanged, no matter how many other interns happened in between; a fresh
identity appends its filename and receives the next index; and the file
table holds exactly one filename per distinct interned identity. -/
theorem addFileToDictionary_spec (st : FileState) (k : Nat)
    (fn0 fn : String) (mid : List (Nat × String))
    (calls : List (Nat × String)) (k2 : Nat) (fn2 : String)
    (hfresh : lookupAssoc st.lookup k2 = none) :
    (addFileToDictionary k fn
        (runInterns mid (addFileToDictionary k fn0 st).2) =
      ((addFileToDictionary k fn0 st).1,
        runInterns mid (addFileToDictionary k fn0 st).2)) ∧
    (addFileToDictionary k2 fn2 st =
      (st.files.length,
        ⟨st.files ++ [fn2], st.lookup ++ [(k2, st.files.length)]⟩)) ∧
    ((runInterns calls FileState.empty).files.length
        = (calls.map Prod.fst).toFinset.card) := by
  refine ⟨?_, addFile_fresh fn2 hfresh, ?_⟩
  · have h1 := lookupAssoc_addFile_self st k fn0
    have h2 := lookupAssoc_runInterns_preserved h1 mid
    exact addFile_found fn h2
  · have h := runInterns_files_length calls FileState.empty
    simpa [FileState.empty, lookupAssoc] using h

/-- Witness for C8: a concrete run interning identity 1 twice around an
intern of identity 2: the second intern of 1 returns the originally
assigned index 0 without growing the table, a fresh identity appends, and
the three calls store exactly two filenames. -/
theorem addFileToDictionary_spec_witness :
    lookupAssoc FileState.empty.lookup 2 = none ∧
    (addFileToDictionary 1 "b.h"
        (runInterns [(2, "c.h")] (addFileToDictionary 1 "a.h" FileState.empty).2) =
      ((addFileToDictionary 1 "a.h" FileState.empty).1,
        runInterns [(2, "c.h")] (addFileToDictionary 1 "a.h" FileState.empty).2)) ∧
    (addFileToDictionary 2 "c.h" FileState.empty =
      (FileState.empty.files.length,
        ⟨FileState.empty.files ++ ["c.h"],
         FileState.empty.lookup ++ [(2, FileState.empty.files.length)]⟩)) ∧
    ((runInterns [(1, "a.h"), (2, "c.h"), (1, "b.h")]
        FileState.empty).files.length
      = (([(1, "a.h"), (2, "c.h"), (1, "b.h")] :
            List (Nat × String)).map Prod.fst).toFinset.card) := by
  have h := addFileToDictionary_spec FileState.empty 1 "a.h" "b.h"
    [(2, "c.h")] [(1, "a.h"), (2, "c.h"), (1, "b.h")] 2 "c.h" rfl
  exact ⟨rfl, h.1, h.2.1, h.2.2⟩

theorem visitorInv_nil (flt : LocationFilter) :
    visitorInv flt [] ⟨none, 0, 0⟩ := by
  constructor
  · intro _
    exact ⟨rfl, rfl, by intro c hc; cases hc⟩
  · intro b hb
    cases hb

theorem visitorInv_step (flt : LocationFilter) (processed : List Candidate)
    (s : VisitorState) (c : Candidate)
    (hc : eligible c = true → 0 < c.startLine)
    (hinv : visitorInv flt processed s) :
    visitorInv flt (processed ++ [c]) (tryRecord flt s c) := by
  obtain ⟨hnone, hsome⟩ := hinv
  unfold tryRecord
  by_cases heli : eligible c
  · simp only [heli, if_true]
    by_cases hcond :
        (flt.row > c.startLine ∨ (flt.row = c.startLine ∧ flt.col ≥ c.startCol)) ∧
        (flt.row < c.endLine ∨ (flt.row = c.endLine ∧ flt.col ≤ c.endCol)) ∧
        (c.startLine > s.bestStartLine ∨
          (c.startLine = s.bestStartLine ∧ c.startCol > s.bestStartCol))
    · rw [if_pos hcond]
      obtain ⟨hin1, hin2, hgt⟩ := hcond
      have hgoodc : goodMatch flt c := ⟨heli, hin1, hin2⟩
      constructor
      · intro habs
        cases habs
      · intro b hb
        have hcb : c = b := by
          have hsc : some c = some b := hb
          injection hsc
        subst hcb
        have hprev : ∀ x ∈ processed, goodMatch flt x →
            lexLE (startPos x) (s.bestStartLine, s.bestStartCol) := by
          intro x hx hgx
          cases hbest : s.best with
          | none =>
            exact absurd hgx ((hnone hbest).2.2 x hx)
          | some b0 =>
            obtain ⟨_, _, hsp, hle, _⟩ := hsome b0 hbest
            have hxle := hle x hx hgx
            rw [hsp] at hxle
            exact hxle
        have hstrict : ∀ x ∈ processed, goodMatch flt x →
            lexLE (startPos x) (startPos c) ∧ startPos x ≠ startPos c := by
          intro x hx hgx
          have h1 := hprev x hx hgx
          unfold lexLE startPos at h1 ⊢
          simp only [Prod.mk.injEq, not_and]
          rcases h1 with h1 | ⟨h1a, h1b⟩ <;> rcases hgt with hg | ⟨hga, hgb⟩ <;>
            constructor <;> try omega
          all_goals
            intro hax
            rw [Prod.mk.injEq] at hax
            obtain ⟨hax1, hax2⟩ := hax
            omega
        refine ⟨hgoodc, List.mem_append_right _ (List.mem_singleton.mpr rfl),
          rfl, ?_, ?_⟩
        · intro x hx hgx
          rcases List.mem_append.mp hx with hx' | hx'
          · exact (hstrict x hx' hgx).1
          · rw [List.mem_singleton.mp hx']
            unfold lexLE startPos
            right
            exact ⟨rfl, Nat.le_refl _⟩
        · rw [List.find?_append]
          have hfn : processed.find?
              (fun x => decide (goodMatch flt x ∧ startPos x = startPos c))
              = none := by
            rw [List.find?_eq_none]
            intro x hx
            simp only [decide_eq_true_eq, not_and]
            intro hgx
            exact (hstrict x hx hgx).2
          rw [hfn]
          simp [hgoodc]
    · rw [if_neg hcond]
      constructor
      · intro hbest
        obtain ⟨h0a, h0b, hall⟩ := hnone hbest
        refine ⟨h0a, h0b, ?_⟩
        intro x hx
        rcases List.mem_append.mp hx with hx' | hx'
        · exact hall x hx'
        · rw [List.mem_singleton.mp hx']
          intro ⟨_, hin1, hin2⟩
          apply hcond
          refine ⟨hin1, hin2, ?_⟩
          rw [h0a]
          left
          exact hc heli
      · intro b hb
        obtain ⟨hgb, hmb, hsp, hle, hfind⟩ := hsome b hb
        refine ⟨hgb, List.mem_append_left _ hmb, hsp, ?_, ?_⟩
        · intro x hx hgx
          rcases List.mem_append.mp hx with hx' | hx'
          · exact hle x hx' hgx
          · rw [List.mem_singleton.mp hx'] at hgx ⊢
            obtain ⟨_, hin1, hin2⟩ := hgx
            have hn : ¬(c.startLine > s.bestStartLine ∨
                (c.startLine = s.bestStartLine ∧ c.startCol > s.bestStartCol)) := by
              intro hg
              exact hcond ⟨hin1, hin2, hg⟩
            rw [hsp]
            unfold lexLE startPos
            push_neg at hn
            obtain ⟨hn1, hn2⟩ := hn
            by_cases he : c.startLine = s.bestStartLine
            · right
              exact ⟨he, by omega⟩
            · left
              omega
        · rw [List.find?_append, hfind]
          rfl
  · simp only [heli, if_false]
    constructor
    · intro hbest
      obtain ⟨h0a, h0b, hall⟩ := hnone hbest
      refine ⟨h0a, h0b, ?_⟩
      intro x hx
      rcases List.mem_append.mp hx with hx' | hx'
      · exact hall x hx'
      · rw [List.mem_singleton.mp hx']
        intro ⟨hex, _⟩
        exact heli hex
    · intro b hb
      obtain ⟨hgb, hmb, hsp, hle, hfind⟩ := hsome b hb
      refine ⟨hgb, List.mem_append_left _ hmb, hsp, ?_, ?_⟩
      · intro x hx hgx
        rcases List.mem_append.mp hx with hx' | hx'
        · exact hle x hx' hgx
        · rw [List.mem_singleton.mp hx'] at hgx
          exact absurd hgx.1 heli
      · rw [List.find?_append, hfind]
        rfl

theorem visitorInv_foldl (flt : LocationFilter) (cs : List Candidate) :
    ∀ (processed : List Candidate) (s : VisitorState),
      (∀ c ∈ cs, eligible c = true → 0 < c.startLine) →
      visitorInv flt processed s →
      visitorInv flt (processed ++ cs) (cs.foldl (tryRecord flt) s) := by
  induction cs with
  | nil =>
    intro processed s _ hinv
    simpa using hinv
  | cons c rest ih =>
    intro processed s h hinv
    have hstep := visitorInv_step flt processed s c
      (h c (List.mem_cons_self c rest)) hinv
    have hrest := ih (processed ++ [c]) (tryRecord flt s c)
      (fun x hx he => h x (List.mem_cons_of_mem c hx) he) hstep
    simpa [List.append_assoc] using hrest

/-- Claim C2: the Declaration Locator returns an eligible candidate only if the
filter position lies within its `[start, end]` range (lexicographic by
line then column); among all containing candidates it returns the one
with the lexicographically latest start, the first-found candidate
winning on equal starts; and it returns absent exactly when no eligible
candidate contains the filter position. (Presumed start lines of real
declarations are 1-based, hence the `0 < startLine` hypothesis: the
visitor's `(0, 0)` sentinel lies below every real start position.) -/
theorem locate_spec (flt : LocationFilter) (cs : List Candidate)
    (h : ∀ c ∈ cs, eligible c = true → 0 < c.startLine) :
    (∀ b, locate flt cs = some b →
      goodMatch flt b ∧ b ∈ cs ∧
      (∀ c ∈ cs, goodMatch flt c → lexLE (startPos c) (startPos b)) ∧
      cs.find? (fun c => decide (goodMatch flt c ∧ startPos c = startPos b))
        = some b) ∧
    (locate flt cs = none ↔ ∀ c ∈ cs, ¬goodMatch flt c) := by
  have hinv := visitorInv_foldl flt cs [] ⟨none, 0, 0⟩ h (visitorInv_nil flt)
  rw [List.nil_append] at hinv
  obtain ⟨hnone, hsome⟩ := hinv
  constructor
  · intro b hb
    unfold locate at hb
    obtain ⟨hg, hm, _, hle, hfind⟩ := hsome b hb
    exact ⟨hg, hm, hle, hfind⟩
  · constructor
    · intro hloc
      unfold locate at hloc
      exact (hnone hloc).2.2
    · intro hall
      unfold locate
      cases hres : (cs.foldl (tryRecord flt) ⟨none, 0, 0⟩).best with
      | none => rfl
      | some b =>
        obtain ⟨hg, hm, _⟩ := hsome b hres
        exact absurd hg (hall b hm)

/-- Witness for C2: two nested candidates, the outer starting at (1,1)
and ending at (10,1), the inner starting at (2,3) and ending at (5,1);
with the filter at (3,2) the locator picks the inner one, whose start is
lexicographically latest among the containing candidates. -/
theorem locate_spec_witness :
    (∀ c ∈ ([⟨true, false, true, false, true, 1, 1, 10, 1⟩,
             ⟨true, false, true, false, true, 2, 3, 5, 1⟩] : List Candidate),
        eligible c = true → 0 < c.startLine) ∧
    goodMatch ⟨3, 2⟩ (⟨true, false, true, false, true, 2, 3, 5, 1⟩ : Candidate) ∧
    (⟨true, false, true, false, true, 2, 3, 5, 1⟩ : Candidate) ∈
      ([⟨true, false, true, false, true, 1, 1, 10, 1⟩,
        ⟨true, false, true, false, true, 2, 3, 5, 1⟩] : List Candidate) ∧
    (∀ c ∈ ([⟨true, false, true, false, true, 1, 1, 10, 1⟩,
             ⟨true, false, true, false, true, 2, 3, 5, 1⟩] : List Candidate),
        goodMatch ⟨3, 2⟩ c →
          lexLE (startPos c)
            (startPos (⟨true, false, true, false, true, 2, 3, 5, 1⟩ :
              Candidate))) := by
  have hloc : locate ⟨3, 2⟩
      ([⟨true, false, true, false, true, 1, 1, 10, 1⟩,
        ⟨true, false, true, false, true, 2, 3, 5, 1⟩] : List Candidate)
      = some ⟨true, false, true, false, true, 2, 3, 5, 1⟩ := by
    simp [locate, tryRecord, eligible]
  have h := (locate_spec ⟨3, 2⟩
      ([⟨true, false, true, false, true, 1, 1, 10, 1⟩,
        ⟨true, false, true, false, true, 2, 3, 5, 1⟩] : List Candidate)
      (by decide)).1 _ hloc
  exact ⟨by decide, h.1, h.2.1, h.2.2.1⟩

theorem Node.subnodes_mk (d : NodeData) (cs : List Node) :
    (Node.mk d cs).subnodes = Node.mk d cs :: subnodesList cs := by
  rw [Node.subnodes]

theorem subnodesList_append (l1 l2 : List Node) :
    subnodesList (l1 ++ l2) = subnodesList l1 ++ subnodesList l2 := by
  induction l1 with
  | nil => simp [subnodesList]
  | cons n rest ih => simp [subnodesList, ih]

theorem mkTablePtrNode_subnodes (ctx : Ctx) (cat : Category) (off : Int) :
    (mkTablePtrNode ctx cat off).subnodes = [mkTablePtrNode ctx cat off] := by
  rw [mkTablePtrNode, Node.subnodes, subnodesList]

theorem bitsToBytes_nonneg (n : Nat) : 0 ≤ bitsToBytes n := by
  unfold bitsToBytes
  exact Int.natCast_nonneg _

theorem baseLE_trans (a b c : BaseSpec) :
    baseLE a b → baseLE b c → baseLE a c := by
  simp only [baseLE, decide_eq_true_eq]
  omega

theorem baseLE_total (a b : BaseSpec) : baseLE a b || baseLE b a := by
  simp only [baseLE]
  rcases le_total a.offset b.offset with h | h <;> simp [h]

theorem pairwiseB_iff (r : α → α → Bool) (l : List α) :
    pairwiseB r l = true ↔ List.Pairwise (fun a b => r a b = true) l := by
  induction l with
  | nil => simp [pairwiseB]
  | cons a rest ih =>
    simp [pairwiseB, List.pairwise_cons, ih, List.all_eq_true, and_comm]

theorem coherentBaseList_mem {l : List BaseSpec}
    (h : coherentBaseList l = true) {b : BaseSpec} (hb : b ∈ l) :
    coherent b.decl = true := by
  induction l with
  | nil => cases hb
  | cons x rest ih =>
    obtain ⟨v, d, o⟩ := x
    rw [coherentBaseList, Bool.and_eq_true] at h
    rcases List.mem_cons.mp hb with rfl | hb'
    · exact h.1
    · exact ih h.2 hb'

theorem coherentFieldList_mem {l : List FieldEntry}
    (h : coherentFieldList l = true) {f : FieldEntry} (hf : f ∈ l)
    {r : RecordDecl} (hk : f.kind = FieldKind.recordType r) :
    coherent r = true := by
  induction l with
  | nil => cases hf
  | cons x rest ih =>
    obtain ⟨n, t, lo, ob, k⟩ := x
    cases k with
    | recordType d =>
      rw [coherentFieldList, Bool.and_eq_true] at h
      rcases List.mem_cons.mp hf with rfl | hf'
      · rw [FieldEntry.kind] at hk
        injection hk with hk
        subst hk
        exact h.1
      · exact ih h.2 hf'
    | scalarType w a bi =>
      rw [coherentFieldList, Bool.and_eq_true] at h
      rcases List.mem_cons.mp hf with rfl | hf'
      · rw [FieldEntry.kind] at hk
        cases hk
      · exact ih h.2 hf'

theorem coherentVBaseList_mem {l : List VBaseSpec}
    (h : coherentVBaseList l = true) {v : VBaseSpec} (hv : v ∈ l) :
    coherent v.decl = true := by
  induction l with
  | nil => cases hv
  | cons x rest ih =>
    obtain ⟨d, o, dp⟩ := x
    rw [coherentVBaseList, Bool.and_eq_true] at h
    rcases List.mem_cons.mp hv with rfl | hv'
    · exact h.1
    · exact ih h.2 hv'

theorem computeStruct_eq (ctx : Ctx) (d : RecordDecl) (ivb : Bool)
    (st : FileState) :
    computeStruct ctx d ivb st =
      (Node.mk
        { name := ""
          typeName := d.qualifiedName
          nature := Category.ComplexField
          offset := 0
          size := if ivb then d.size else d.nvSize
          align := d.align
          typeLocation := (retrieveLocation d.loc st).1
          fieldLocation := none }
        (vptrNodes ctx d
          ++ (computeBaseList ctx d.primaryBaseId (nvSorted d)
                (stAfterLoc d st)).1
          ++ vbptrNodes ctx d
          ++ (computeFieldList ctx d.fields (stAfterBases ctx d st)).1
          ++ (if ivb then
                (computeVBaseList ctx d.primaryBaseId d.vbases
                  (stAfterFields ctx d st)).1
              else [])),
       if ivb then
         (computeVBaseList ctx d.primaryBaseId d.vbases
           (stAfterFields ctx d st)).2
       else stAfterFields ctx d st) := by
  obtain ⟨i, qn, loc, dyn, size, nvsize, align, pid, hvf, hvb, vbo,
    bases, fields, vbases⟩ := d
  rw [computeStruct]
  simp only [RecordDecl.qualifiedName, RecordDecl.loc, RecordDecl.size,
    RecordDecl.nvSize, RecordDecl.align, RecordDecl.primaryBaseId,
    RecordDecl.isDynamicClass, RecordDecl.hasOwnVFPtr, RecordDecl.hasOwnVBPtr,
    RecordDecl.vbptrOffset, RecordDecl.bases, RecordDecl.fields,
    RecordDecl.vbases, vptrNodes, vbptrNodes, nvSorted, stAfterLoc,
    stAfterBases, stAfterFields]
  cases ivb <;> simp

theorem computeStruct_children (ctx : Ctx) (d : RecordDecl) (ivb : Bool)
    (st : FileState) :
    (computeStruct ctx d ivb st).1.children =
      vptrNodes ctx d
        ++ (computeBaseList ctx d.primaryBaseId (nvSorted d)
              (stAfterLoc d st)).1
        ++ vbptrNodes ctx d
        ++ (computeFieldList ctx d.fields (stAfterBases ctx d st)).1
        ++ (if ivb then
              (computeVBaseList ctx d.primaryBaseId d.vbases
                (stAfterFields ctx d st)).1
            else []) := by
  rw [computeStruct_eq]
  rfl

theorem computeStruct_data (ctx : Ctx) (d : RecordDecl) (ivb : Bool)
    (st : FileState) :
    (computeStruct ctx d ivb st).1.data =
      { name := ""
        typeName := d.qualifiedName
        nature := Category.ComplexField
        offset := 0
        size := if ivb then d.size else d.nvSize
        align := d.align
        typeLocation := (retrieveLocation d.loc st).1
        fieldLocation := none } := by
  rw [computeStruct_eq]
  rfl

theorem Node.data_mk (d : NodeData) (cs : List Node) :
    (Node.mk d cs).data = d := rfl

theorem Node.children_mk (d : NodeData) (cs : List Node) :
    (Node.mk d cs).children = cs := rfl

theorem baseSpecOffset_mk (v : Bool) (d : RecordDecl) (o : Int) :
    (BaseSpec.mk v d o).offset = o := rfl

theorem vbaseSpecOffset_mk (d : RecordDecl) (o : Int) (h : Bool) :
    (VBaseSpec.mk d o h).offset = o := rfl

theorem VBaseSpec.hasVtorDisp_mk (d : RecordDecl) (o : Int) (h : Bool) :
    (VBaseSpec.mk d o h).hasVtorDisp = h := rfl

theorem fieldByteOff_mk (fn ft : String) (lo : SrcLoc) (ob : Nat)
    (k : FieldKind) :
    fieldByteOff (FieldEntry.mk fn ft lo ob k) = bitsToBytes ob := rfl

theorem computeBaseList_map_offset (ctx : Ctx) (p : Option Nat) :
    ∀ (l : List BaseSpec) (st : FileState),
      (computeBaseList ctx p l st).1.map (fun n => n.data.offset)
        = l.map BaseSpec.offset := by
  intro l
  induction l with
  | nil =>
    intro st
    rw [computeBaseList]
    simp
  | cons b rest ih =>
    intro st
    obtain ⟨v, d, o⟩ := b
    rw [computeBaseList]
    simp only [List.map_cons, Node.data_mk, baseSpecOffset_mk, ih]

theorem computeBaseList_natures (ctx : Ctx) (p : Option Nat) :
    ∀ (l : List BaseSpec) (st : FileState) (n : Node),
      n ∈ (computeBaseList ctx p l st).1 →
      n.data.nature = Category.NVPrimaryBase ∨
        n.data.nature = Category.NVBase := by
  intro l
  induction l with
  | nil =>
    intro st n hn
    rw [computeBaseList] at hn
    cases hn
  | cons b rest ih =>
    intro st n hn
    obtain ⟨v, d, o⟩ := b
    rw [computeBaseList] at hn
    rcases List.mem_cons.mp hn with rfl | hn'
    · by_cases hp : (some d.id == p) = true <;>
        simp [Node.data_mk, hp]
    · exact ih _ n hn'

theorem computeFieldList_map_offset (ctx : Ctx) :
    ∀ (l : List FieldEntry) (st : FileState),
      (computeFieldList ctx l st).1.map (fun n => n.data.offset)
        = l.map fieldByteOff := by
  intro l
  induction l with
  | nil =>
    intro st
    rw [computeFieldList]
    simp
  | cons f rest ih =>
    intro st
    obtain ⟨fn, ft, lo, ob, k⟩ := f
    cases k with
    | recordType r =>
      rw [computeFieldList]
      simp only [List.map_cons, Node.data_mk, fieldByteOff_mk, ih]
    | scalarType w a bi =>
      cases bi with
      | some bw =>
        rw [computeFieldList]
        simp only [List.map_cons, Node.data_mk, fieldByteOff_mk, ih]
      | none =>
        rw [computeFieldList]
        simp only [List.map_cons, Node.data_mk, fieldByteOff_mk, ih]

theorem computeFieldList_natures (ctx : Ctx) :
    ∀ (l : List FieldEntry) (st : FileState) (n : Node),
      n ∈ (computeFieldList ctx l st).1 →
      n.data.nature = Category.ComplexField ∨
        n.data.nature = Category.Bitfield ∨
        n.data.nature = Category.SimpleField := by
  intro l
  induction l with
  | nil =>
    intro st n hn
    rw [computeFieldList] at hn
    cases hn
  | cons f rest ih =>
    intro st n hn
    obtain ⟨fn, ft, lo, ob, k⟩ := f
    cases k with
    | recordType r =>
      rw [computeFieldList] at hn
      rcases List.mem_cons.mp hn with rfl | hn'
      · simp [Node.data_mk]
      · exact ih _ n hn'
    | scalarType w a bi =>
      cases bi with
      | some bw =>
        rw [computeFieldList] at hn
        rcases List.mem_cons.mp hn with rfl | hn'
        · simp [Node.data_mk]
        · exact ih _ n hn'
      | none =>
        rw [computeFieldList] at hn
        rcases List.mem_cons.mp hn with rfl | hn'
        · simp [Node.data_mk]
        · exact ih _ n hn'

theorem computeVBaseList_map_offset (ctx : Ctx) (p : Option Nat) :
    ∀ (l : List VBaseSpec) (st : FileState),
      (computeVBaseList ctx p l st).1.map (fun n => n.data.offset)
        = l.flatMap (fun v =>
            (if v.hasVtorDisp then [v.offset - 4] else []) ++ [v.offset]) := by
  intro l
  induction l with
  | nil =>
    intro st
    rw [computeVBaseList]
    simp
  | cons v rest ih =>
    intro st
    obtain ⟨d, o, dp⟩ := v
    rw [computeVBaseList]
    cases dp <;>
      simp only [List.flatMap_cons, Node.data_mk, vbaseSpecOffset_mk,
        VBaseSpec.hasVtorDisp_mk, List.map_append, List.map_cons,
        List.map_nil, if_true, if_false, Bool.false_eq_true, ih,
        List.nil_append, List.singleton_append, List.cons_append]

theorem computeVBaseList_natures (ctx : Ctx) (p : Option Nat) :
    ∀ (l : List VBaseSpec) (st : FileState) (n : Node),
      n ∈ (computeVBaseList ctx p l st).1 →
      n.data.nature = Category.VtorDisp ∨
        n.data.nature = Category.VPrimaryBase ∨
        n.data.nature = Category.VBase := by
  intro l
  induction l with
  | nil =>
    intro st n hn
    rw [computeVBaseList] at hn
    cases hn
  | cons v rest ih =>
    intro st n hn
    obtain ⟨d, o, dp⟩ := v
    rw [computeVBaseList] at hn
    rcases List.mem_append.mp hn with hn' | hn'
    · cases dp with
      | true =>
        rcases List.mem_singleton.mp (by simpa using hn') with rfl
        simp [Node.data_mk]
      | false =>
        simp at hn'
    · rcases List.mem_cons.mp hn' with rfl | hn''
      · by_cases hp : (some d.id == p) = true <;>
          simp [Node.data_mk, hp]
      · exact ih _ n hn''

theorem mem_vptrNodes {ctx : Ctx} {d : RecordDecl} {n : Node}
    (hn : n ∈ vptrNodes ctx d) :
    n.data.offset = 0 ∧ n.children = [] ∧
      (n.data.nature = Category.VTablePtr ∨
        n.data.nature = Category.VFTablePtr) := by
  unfold vptrNodes at hn
  split at hn
  · rcases List.mem_singleton.mp hn with rfl
    simp [mkTablePtrNode, Node.data_mk, Node.children_mk]
  · split at hn
    · rcases List.mem_singleton.mp hn with rfl
      simp [mkTablePtrNode, Node.data_mk, Node.children_mk]
    · cases hn

theorem mem_vbptrNodes {ctx : Ctx} {d : RecordDecl} {n : Node}
    (hn : n ∈ vbptrNodes ctx d) :
    n.data.offset = d.vbptrOffset ∧ n.children = [] ∧
      n.data.nature = Category.VBTablePtr ∧ d.hasOwnVBPtr = true := by
  unfold vbptrNodes at hn
  split at hn
  · rcases List.mem_singleton.mp hn with rfl
    simp_all [mkTablePtrNode, Node.data_mk, Node.children_mk]
  · cases hn

theorem Node.subnodes_eq (n : Node) :
    n.subnodes = n :: subnodesList n.children := by
  obtain ⟨d, cs⟩ := n
  rw [Node.subnodes, Node.children_mk]

theorem Node.self_mem_subnodes (n : Node) : n ∈ n.subnodes := by
  rw [Node.subnodes_eq]
  exact List.mem_cons_self _ _

theorem subnodesList_vptrNodes (ctx : Ctx) (d : RecordDecl) :
    subnodesList (vptrNodes ctx d) = vptrNodes ctx d := by
  unfold vptrNodes
  split
  · rw [subnodesList, mkTablePtrNode_subnodes, subnodesList]
    rfl
  · split
    · rw [subnodesList, mkTablePtrNode_subnodes, subnodesList]
      rfl
    · rw [subnodesList]

theorem subnodesList_vbptrNodes (ctx : Ctx) (d : RecordDecl) :
    subnodesList (vbptrNodes ctx d) = vbptrNodes ctx d := by
  unfold vbptrNodes
  split
  · rw [subnodesList, mkTablePtrNode_subnodes, subnodesList]
    rfl
  · rw [subnodesList]

theorem mem_vbFlat {l : List VBaseSpec} {x : Int}
    (hx : x ∈ l.flatMap (fun v =>
      (if v.hasVtorDisp then [v.offset - 4] else []) ++ [v.offset])) :
    ∃ v ∈ l, vbStart v ≤ x ∧ x ≤ v.offset := by
  rcases List.mem_flatMap.mp hx with ⟨v, hv, hxv⟩
  refine ⟨v, hv, ?_⟩
  unfold vbStart
  rcases List.mem_append.mp hxv with hxv' | hxv'
  · split at hxv'
    · rcases List.mem_singleton.mp hxv' with rfl
      simp_all
    · cases hxv'
  · rcases List.mem_singleton.mp hxv' with rfl
    split <;> omega

theorem vbFlat_pairwise {l : List VBaseSpec}
    (h : List.Pairwise (fun v w => v.offset ≤ vbStart w) l) :
    List.Pairwise (fun a b => a ≤ b) (l.flatMap (fun v =>
      (if v.hasVtorDisp then [v.offset - 4] else []) ++ [v.offset])) := by
  induction l with
  | nil => simp
  | cons v rest ih =>
    rw [List.pairwise_cons] at h
    rw [List.flatMap_cons, List.pairwise_append]
    refine ⟨?_, ih h.2, ?_⟩
    · split <;> simp
    · intro a ha b hb
      rcases mem_vbFlat hb with ⟨w, hw, hbw, _⟩
      have hvw := h.1 w hw
      have hav : a ≤ v.offset := by
        rcases List.mem_append.mp ha with ha' | ha'
        · split at ha'
          · rcases List.mem_singleton.mp ha' with rfl
            omega
          · cases ha'
        · rcases List.mem_singleton.mp ha' with rfl
          omega
      omega

theorem topChildrenSorted (ctx : Ctx) (d : RecordDecl) (ivb : Bool)
    (st : FileState)
    (c1 : ∀ b ∈ d.bases.filter (fun b => !b.isVirtual), 0 ≤ b.offset)
    (c2 : d.hasOwnVBPtr = false ∨
      (0 ≤ d.vbptrOffset ∧
       (∀ b ∈ d.bases.filter (fun b => !b.isVirtual),
          b.offset ≤ d.vbptrOffset) ∧
       (∀ f ∈ d.fields, d.vbptrOffset ≤ fieldByteOff f) ∧
       (∀ v ∈ d.vbases, d.vbptrOffset ≤ vbStart v)))
    (c3 : ∀ b ∈ d.bases.filter (fun b => !b.isVirtual),
       ∀ f ∈ d.fields, b.offset ≤ fieldByteOff f)
    (c4 : ∀ b ∈ d.bases.filter (fun b => !b.isVirtual),
       ∀ v ∈ d.vbases, b.offset ≤ vbStart v)
    (c5 : List.Pairwise (fun f g => fieldByteOff f ≤ fieldByteOff g) d.fields)
    (c6 : ∀ f ∈ d.fields, ∀ v ∈ d.vbases, fieldByteOff f ≤ vbStart v)
    (c7 : ∀ v ∈ d.vbases, 0 ≤ vbStart v)
    (c8 : List.Pairwise (fun v w => v.offset ≤ vbStart w) d.vbases) :
    List.Pairwise (fun a b => a.data.offset ≤ b.data.offset)
      ((computeStruct ctx d ivb st).1.children) := by
  rw [computeStruct_children]
  have memA : ∀ n ∈ vptrNodes ctx d, n.data.offset = 0 :=
    fun n hn => (mem_vptrNodes hn).1
  have memBL : ∀ n ∈ (computeBaseList ctx d.primaryBaseId (nvSorted d)
      (stAfterLoc d st)).1,
      ∃ b ∈ d.bases.filter (fun x => !x.isVirtual), n.data.offset = b.offset := by
    intro n hn
    have hmap := computeBaseList_map_offset ctx d.primaryBaseId (nvSorted d)
      (stAfterLoc d st)
    have hoff : n.data.offset ∈ (nvSorted d).map BaseSpec.offset := by
      rw [← hmap]
      exact List.mem_map_of_mem _ hn
    rcases List.mem_map.mp hoff with ⟨b, hb, hbo⟩
    exact ⟨b, List.mem_mergeSort.mp hb, hbo.symm⟩
  have memC : ∀ n ∈ vbptrNodes ctx d,
      n.data.offset = d.vbptrOffset ∧ d.hasOwnVBPtr = true :=
    fun n hn => ⟨(mem_vbptrNodes hn).1, (mem_vbptrNodes hn).2.2.2⟩
  have memFL : ∀ n ∈ (computeFieldList ctx d.fields
      (stAfterBases ctx d st)).1,
      ∃ f ∈ d.fields, n.data.offset = fieldByteOff f := by
    intro n hn
    have hmap := computeFieldList_map_offset ctx d.fields (stAfterBases ctx d st)
    have hoff : n.data.offset ∈ d.fields.map fieldByteOff := by
      rw [← hmap]
      exact List.mem_map_of_mem _ hn
    rcases List.mem_map.mp hoff with ⟨f, hf, hfo⟩
    exact ⟨f, hf, hfo.symm⟩
  have memE : ∀ n ∈ (if ivb then
      (computeVBaseList ctx d.primaryBaseId d.vbases
        (stAfterFields ctx d st)).1 else []),
      ∃ v ∈ d.vbases, vbStart v ≤ n.data.offset ∧ n.data.offset ≤ v.offset := by
    cases ivb with
    | false =>
      intro n hn
      rw [if_neg Bool.false_ne_true] at hn
      cases hn
    | true =>
      intro n hn
      rw [if_pos rfl] at hn
      have hmap := computeVBaseList_map_offset ctx d.primaryBaseId d.vbases
        (stAfterFields ctx d st)
      have hoff : n.data.offset ∈ d.vbases.flatMap (fun v =>
          (if v.hasVtorDisp then [v.offset - 4] else []) ++ [v.offset]) := by
        rw [← hmap]
        exact List.mem_map_of_mem _ hn
      exact mem_vbFlat hoff
  have pA : List.Pairwise (fun a b => a.data.offset ≤ b.data.offset)
      (vptrNodes ctx d) := by
    unfold vptrNodes
    split
    · exact List.pairwise_singleton _ _
    · split
      · exact List.pairwise_singleton _ _
      · exact List.Pairwise.nil
  have pBL : List.Pairwise (fun a b => a.data.offset ≤ b.data.offset)
      (computeBaseList ctx d.primaryBaseId (nvSorted d) (stAfterLoc d st)).1 := by
    have hsorted : List.Pairwise (fun a b => a.offset ≤ b.offset)
        (nvSorted d) := by
      have hs := @List.sorted_mergeSort BaseSpec baseLE
        baseLE_trans baseLE_total
        (d.bases.filter (fun b => !b.isVirtual))
      unfold nvSorted
      refine hs.imp ?_
      intro a b hab
      simpa [baseLE] using hab
    have hmo : List.Pairwise (fun a b => a ≤ b)
        ((nvSorted d).map BaseSpec.offset) :=
      List.pairwise_map.mpr hsorted
    rw [← computeBaseList_map_offset ctx d.primaryBaseId (nvSorted d)
      (stAfterLoc d st)] at hmo
    exact List.pairwise_map.mp hmo
  have pC : List.Pairwise (fun a b => a.data.offset ≤ b.data.offset)
      (vbptrNodes ctx d) := by
    unfold vbptrNodes
    split
    · exact List.pairwise_singleton _ _
    · exact List.Pairwise.nil
  have pFL : List.Pairwise (fun a b => a.data.offset ≤ b.data.offset)
      (computeFieldList ctx d.fields (stAfterBases ctx d st)).1 := by
    have hmo : List.Pairwise (fun a b => a ≤ b)
        (d.fields.map fieldByteOff) :=
      List.pairwise_map.mpr c5
    rw [← computeFieldList_map_offset ctx d.fields (stAfterBases ctx d st)]
      at hmo
    exact List.pairwise_map.mp hmo
  have pE : List.Pairwise (fun a b => a.data.offset ≤ b.data.offset)
      (if ivb then (computeVBaseList ctx d.primaryBaseId d.vbases
        (stAfterFields ctx d st)).1 else []) := by
    cases ivb with
    | false =>
      rw [if_neg Bool.false_ne_true]
      exact List.Pairwise.nil
    | true =>
      rw [if_pos rfl]
      have hmo : List.Pairwise (fun a b => a ≤ b)
          (d.vbases.flatMap (fun v =>
            (if v.hasVtorDisp then [v.offset - 4] else []) ++ [v.offset])) :=
        vbFlat_pairwise c8
      rw [← computeVBaseList_map_offset ctx d.primaryBaseId d.vbases
        (stAfterFields ctx d st)] at hmo
      exact List.pairwise_map.mp hmo
  -- cross bounds
  have crossE : ∀ a ∈ vptrNodes ctx d
        ++ (computeBaseList ctx d.primaryBaseId (nvSorted d)
            (stAfterLoc d st)).1
        ++ vbptrNodes ctx d
        ++ (computeFieldList ctx d.fields (stAfterBases ctx d st)).1,
      ∀ v ∈ d.vbases, a.data.offset ≤ vbStart v := by
    intro a ha v hv
    rcases List.mem_append.mp ha with ha' | haFL
    · rcases List.mem_append.mp ha' with ha'' | haC
      · rcases List.mem_append.mp ha'' with haA | haBL
        · rw [memA a haA]
          exact c7 v hv
        · rcases memBL a haBL with ⟨b, hb, hbo⟩
          rw [hbo]
          exact c4 b hb v hv
      · rcases memC a haC with ⟨hoff, hvb⟩
        rcases c2 with h2 | ⟨_, _, _, h2d⟩
        · rw [hvb] at h2
          cases h2
        · rw [hoff]
          exact h2d v hv
    · rcases memFL a haFL with ⟨f, hf, hfo⟩
      rw [hfo]
      exact c6 f hf v hv
  have crossFL : ∀ a ∈ vptrNodes ctx d
        ++ (computeBaseList ctx d.primaryBaseId (nvSorted d)
            (stAfterLoc d st)).1
        ++ vbptrNodes ctx d,
      ∀ f ∈ d.fields, a.data.offset ≤ fieldByteOff f := by
    intro a ha f hf
    rcases List.mem_append.mp ha with ha' | haC
    · rcases List.mem_append.mp ha' with haA | haBL
      · rw [memA a haA]
        exact le_trans (le_refl 0) (bitsToBytes_nonneg _)
      · rcases memBL a haBL with ⟨b, hb, hbo⟩
        rw [hbo]
        exact c3 b hb f hf
    · rcases memC a haC with ⟨hoff, hvb⟩
      rcases c2 with h2 | ⟨_, _, h2c, _⟩
      · rw [hvb] at h2
        cases h2
      · rw [hoff]
        exact h2c f hf
  have crossC : ∀ a ∈ vptrNodes ctx d
        ++ (computeBaseList ctx d.primaryBaseId (nvSorted d)
            (stAfterLoc d st)).1,
      ∀ b ∈ vbptrNodes ctx d, a.data.offset ≤ b.data.offset := by
    intro a ha b hb
    rcases memC b hb with ⟨hoff, hvb⟩
    rcases c2 with h2 | ⟨h2a, h2b, _, _⟩
    · rw [hvb] at h2
      cases h2
    · rw [hoff]
      rcases List.mem_append.mp ha with haA | haBL
      · rw [memA a haA]
        exact h2a
      · rcases memBL a haBL with ⟨bb, hbb, hbo⟩
        rw [hbo]
        exact h2b bb hbb
  have crossBL : ∀ a ∈ vptrNodes ctx d,
      ∀ b ∈ (computeBaseList ctx d.primaryBaseId (nvSorted d)
        (stAfterLoc d st)).1, a.data.offset ≤ b.data.offset := by
    intro a ha b hb
    rw [memA a ha]
    rcases memBL b hb with ⟨bb, hbb, hbo⟩
    rw [hbo]
    exact c1 bb hbb
  refine List.pairwise_append.mpr ⟨?_, pE, ?_⟩
  · refine List.pairwise_append.mpr ⟨?_, pFL, ?_⟩
    · refine List.pairwise_append.mpr ⟨?_, pC, crossC⟩
      exact List.pairwise_append.mpr ⟨pA, pBL, crossBL⟩
    · intro a ha b hb
      rcases memFL b hb with ⟨f, hf, hfo⟩
      rw [hfo]
      exact crossFL a ha f hf
  · intro a ha b hb
    rcases memE b hb with ⟨v, hv, hvb1, _⟩
    exact le_trans (crossE a ha v hv) hvb1

theorem sortedMaster (ctx : Ctx) :
    (∀ (d : RecordDecl) (ivb : Bool) (st : FileState), coherent d = true →
      ∀ m ∈ ((computeStruct ctx d ivb st).1).subnodes,
        List.Pairwise (fun a b => a.data.offset ≤ b.data.offset) m.children) ∧
    (∀ (p : Option Nat) (l : List VBaseSpec) (st : FileState),
      (∀ v ∈ l, coherent v.decl = true) →
      ∀ m ∈ subnodesList (computeVBaseList ctx p l st).1,
        List.Pairwise (fun a b => a.data.offset ≤ b.data.offset) m.children) ∧
    (∀ (l : List FieldEntry) (st : FileState),
      (∀ f ∈ l, ∀ r, f.kind = FieldKind.recordType r → coherent r = true) →
      ∀ m ∈ subnodesList (computeFieldList ctx l st).1,
        List.Pairwise (fun a b => a.data.offset ≤ b.data.offset) m.children) ∧
    (∀ (p : Option Nat) (l : List BaseSpec) (st : FileState),
      (∀ b ∈ l, coherent b.decl = true) →
      ∀ m ∈ subnodesList (computeBaseList ctx p l st).1,
        List.Pairwise (fun a b => a.data.offset ≤ b.data.offset) m.children) := by
  refine computeStruct.mutual_induct ctx _ _ _ _ ?s1 ?s2 ?s3 ?s4 ?s5 ?s6 ?s7 ?s8 ?s9
  case s1 =>
    intro ivb st i qn loc dyn size nvsize align pid hvf hvb vbo bases fields vbases
    dsimp only
    intro ih4a ih4b ih3a ih3b ih2
    intro hcoh
    rw [coherent] at hcoh
    simp only [Bool.and_eq_true, Bool.or_eq_true, List.all_eq_true,
      decide_eq_true_eq, Bool.not_eq_true', and_assoc] at hcoh
    obtain ⟨c1, c2, c3, c4, c5, c6, c7, c8, c9, c10, c11⟩ := hcoh
    have c5p : List.Pairwise (fun f g => fieldByteOff f ≤ fieldByteOff g)
        fields :=
      ((pairwiseB_iff _ _).mp c5).imp (fun h => of_decide_eq_true h)
    have c8p : List.Pairwise (fun v w => v.offset ≤ vbStart w) vbases :=
      ((pairwiseB_iff _ _).mp c8).imp (fun h => of_decide_eq_true h)
    intro m hm
    rw [Node.subnodes_eq, computeStruct_children] at hm
    rcases List.mem_cons.mp hm with rfl | hmtail
    · exact topChildrenSorted ctx
        (RecordDecl.mk i qn loc dyn size nvsize align pid hvf hvb vbo
          bases fields vbases) ivb st c1 c2 c3 c4 c5p c6 c7 c8p
    · simp only [RecordDecl.primaryBaseId, RecordDecl.bases,
        RecordDecl.fields, RecordDecl.vbases, RecordDecl.loc, nvSorted,
        stAfterLoc, stAfterBases, stAfterFields] at hmtail
      rw [subnodesList_append, subnodesList_append, subnodesList_append,
        subnodesList_append] at hmtail
      have hBLhyp : ∀ b ∈ (List.filter (fun b => !b.isVirtual)
          bases).mergeSort baseLE, coherent b.decl = true := by
        intro b hb
        exact coherentBaseList_mem c9
          (List.mem_of_mem_filter (List.mem_mergeSort.mp hb))
      have hFLhyp : ∀ f ∈ fields, ∀ r,
          f.kind = FieldKind.recordType r → coherent r = true := by
        intro f hf r hk
        exact coherentFieldList_mem c10 hf hk
      have hVLhyp : ∀ v ∈ vbases, coherent v.decl = true := by
        intro v hv
        exact coherentVBaseList_mem c11 hv
      rcases List.mem_append.mp hmtail with h4 | hE
      · rcases List.mem_append.mp h4 with h3 | hFL
        · rcases List.mem_append.mp h3 with h2 | hC
          · rcases List.mem_append.mp h2 with hA | hBL
            · rw [subnodesList_vptrNodes] at hA
              rw [(mem_vptrNodes hA).2.1]
              exact List.Pairwise.nil
            · exact ih4a hBLhyp m hBL
          · rw [subnodesList_vbptrNodes] at hC
            rw [(mem_vbptrNodes hC).2.1]
            exact List.Pairwise.nil
        · exact ih3a hFLhyp m hFL
      · cases ivb with
        | false =>
          rw [if_neg Bool.false_ne_true, subnodesList] at hE
          cases hE
        | true =>
          rw [if_pos rfl] at hE
          exact ih2 hVLhyp m hE
  case s2 =>
    intro p st _ m hm
    rw [computeVBaseList] at hm
    rw [subnodesList] at hm
    cases hm
  case s3 =>
    intro p d off disp rest st
    dsimp only
    intro ih1 ih2 hyp m hm
    rw [computeVBaseList] at hm
    have hd : coherent d = true := by
      have h := hyp (VBaseSpec.mk d off disp) (List.mem_cons_self _ _)
      simpa [VBaseSpec.decl] using h
    rw [subnodesList_append] at hm
    rcases List.mem_append.mp hm with hm' | hm'
    · cases disp with
      | true =>
        rw [if_pos rfl] at hm'
        simp only [subnodesList, Node.subnodes_eq, Node.children_mk,
          List.append_nil] at hm'
        rcases List.mem_singleton.mp hm' with rfl
        rw [Node.children_mk]
        exact List.Pairwise.nil
      | false =>
        rw [if_neg Bool.false_ne_true] at hm'
        rw [subnodesList] at hm'
        cases hm'
    · rw [subnodesList] at hm'
      rcases List.mem_append.mp hm' with hm2 | hm2
      · rw [Node.subnodes_eq, Node.children_mk] at hm2
        rcases List.mem_cons.mp hm2 with rfl | hm3
        · rw [Node.children_mk]
          exact ih1 hd (computeStruct ctx d false st).1 (Node.self_mem_subnodes _)
        · have hmem : m ∈ (computeStruct ctx d false st).1.subnodes := by
            rw [Node.subnodes_eq]
            exact List.mem_cons_of_mem _ hm3
          exact ih1 hd m hmem
      · exact ih2 (fun b hb => hyp b (List.mem_cons_of_mem _ hb)) m hm2
  case s4 =>
    intro st _ m hm
    rw [computeFieldList] at hm
    rw [subnodesList] at hm
    cases hm
  case s5 =>
    intro fname ftype floc offBits rest st r
    dsimp only
    intro ih1 ih3 hyp m hm
    rw [computeFieldList] at hm
    have hd : coherent r = true := by
      have h := hyp (FieldEntry.mk fname ftype floc offBits
        (FieldKind.recordType r)) (List.mem_cons_self _ _) r
      simp only [FieldEntry.kind] at h
      exact h trivial
    rw [subnodesList] at hm
    rcases List.mem_append.mp hm with hm' | hm'
    · rw [Node.subnodes_eq, Node.children_mk] at hm'
      rcases List.mem_cons.mp hm' with rfl | hm''
      · rw [Node.children_mk]
        exact ih1 hd (computeStruct ctx r true st).1 (Node.self_mem_subnodes _)
      · have hmem : m ∈ (computeStruct ctx r true st).1.subnodes := by
          rw [Node.subnodes_eq]
          exact List.mem_cons_of_mem _ hm''
        exact ih1 hd m hmem
    · exact ih3 (fun f hf => hyp f (List.mem_cons_of_mem _ hf)) m hm'
  case s6 =>
    intro fname ftype floc offBits rest st w a bw
    intro ih3 hyp m hm
    rw [computeFieldList] at hm
    rw [subnodesList] at hm
    rcases List.mem_append.mp hm with hm' | hm'
    · rw [Node.subnodes_eq, Node.children_mk] at hm'
      rcases List.mem_cons.mp hm' with rfl | hm''
      · rw [Node.children_mk]
        exact List.pairwise_singleton _ _
      · simp only [subnodesList, Node.subnodes_eq, Node.children_mk,
          List.append_nil] at hm''
        rcases List.mem_singleton.mp hm'' with rfl
        rw [Node.children_mk]
        exact List.Pairwise.nil
    · exact ih3 (fun f hf => hyp f (List.mem_cons_of_mem _ hf)) m hm'
  case s7 =>
    intro fname ftype floc offBits rest st w a
    dsimp only
    intro ih3 hyp m hm
    rw [computeFieldList] at hm
    rw [subnodesList] at hm
    rcases List.mem_append.mp hm with hm' | hm'
    · rw [Node.subnodes_eq, Node.children_mk, subnodesList] at hm'
      rcases List.mem_cons.mp hm' with rfl | hm''
      · rw [Node.children_mk]
        exact List.Pairwise.nil
      · cases hm''
    · exact ih3 (fun f hf => hyp f (List.mem_cons_of_mem _ hf)) m hm'
  case s8 =>
    intro p st _ m hm
    rw [computeBaseList] at hm
    rw [subnodesList] at hm
    cases hm
  case s9 =>
    intro p v d off rest st
    dsimp only
    intro ih1 ih4 hyp m hm
    rw [computeBaseList] at hm
    have hd : coherent d = true := by
      have h := hyp (BaseSpec.mk v d off) (List.mem_cons_self _ _)
      simpa [BaseSpec.decl] using h
    rw [subnodesList] at hm
    rcases List.mem_append.mp hm with hm' | hm'
    · rw [Node.subnodes_eq, Node.children_mk] at hm'
      rcases List.mem_cons.mp hm' with rfl | hm''
      · rw [Node.children_mk]
        exact ih1 hd (computeStruct ctx d false st).1 (Node.self_mem_subnodes _)
      · have hmem : m ∈ (computeStruct ctx d false st).1.subnodes := by
          rw [Node.subnodes_eq]
          exact List.mem_cons_of_mem _ hm''
        exact ih1 hd m hmem
    · exact ih4 (fun b hb => hyp b (List.mem_cons_of_mem _ hb)) m hm'

/-- Claim C1 as amended: `ComputeStruct` never sorts `node->children`,
so the claimed invariant only holds conditionally: for every node of the
built tree, the `children` sequence is sorted by `offset` ascending
provided the record's reported layout facts satisfy the ordering
condition `coherent` (for any value of `includeVirtualBases` and any
file state); ties among equal offsets stay in emission order because
construction appends children in emission order and never reorders
them. Without the condition the children are in emission order but not
offset-sorted, as the counterexample below shows on a real layout. -/
theorem computeStruct_children_offset_sorted (ctx : Ctx) (d : RecordDecl)
    (ivb : Bool) (st : FileState) (h : coherent d = true) :
    ∀ m ∈ ((computeStruct ctx d ivb st).1).subnodes,
      List.Pairwise (fun a b => a.data.offset ≤ b.data.offset) m.children :=
  (sortedMaster ctx).1 d ivb st h

/-- Witness for C1: a Microsoft-ABI record with one non-virtual base, one
scalar field and one vtordisp-requiring virtual base satisfies `coherent`,
and the amended claim applies to it. -/
theorem computeStruct_children_offset_sorted_witness :
    coherent (RecordDecl.mk 1 "A" ⟨false, false, false, 0, "", 0, 0⟩ false
      16 8 4 none false true 4
      [BaseSpec.mk false (RecordDecl.mk 2 "B" ⟨false, false, false, 0, "", 0, 0⟩
        false 4 4 4 none false false 0 [] [] []) 0]
      [FieldEntry.mk "x" "int" ⟨false, false, false, 0, "", 0, 0⟩ 32
        (FieldKind.scalarType 32 32 none)]
      [VBaseSpec.mk (RecordDecl.mk 3 "V" ⟨false, false, false, 0, "", 0, 0⟩
        false 4 4 4 none false false 0 [] [] []) 8 true]) = true ∧
    (∀ m ∈ ((computeStruct ⟨64, 64, true⟩
        (RecordDecl.mk 1 "A" ⟨false, false, false, 0, "", 0, 0⟩ false
          16 8 4 none false true 4
          [BaseSpec.mk false (RecordDecl.mk 2 "B"
            ⟨false, false, false, 0, "", 0, 0⟩
            false 4 4 4 none false false 0 [] [] []) 0]
          [FieldEntry.mk "x" "int" ⟨false, false, false, 0, "", 0, 0⟩ 32
            (FieldKind.scalarType 32 32 none)]
          [VBaseSpec.mk (RecordDecl.mk 3 "V"
            ⟨false, false, false, 0, "", 0, 0⟩
            false 4 4 4 none false false 0 [] [] []) 8 true])
        true FileState.empty).1).subnodes,
      List.Pairwise (fun a b => a.data.offset ≤ b.data.offset) m.children) := by
  have hc : coherent (RecordDecl.mk 1 "A" ⟨false, false, false, 0, "", 0, 0⟩
      false 16 8 4 none false true 4
      [BaseSpec.mk false (RecordDecl.mk 2 "B" ⟨false, false, false, 0, "", 0, 0⟩
        false 4 4 4 none false false 0 [] [] []) 0]
      [FieldEntry.mk "x" "int" ⟨false, false, false, 0, "", 0, 0⟩ 32
        (FieldKind.scalarType 32 32 none)]
      [VBaseSpec.mk (RecordDecl.mk 3 "V" ⟨false, false, false, 0, "", 0, 0⟩
        false 4 4 4 none false false 0 [] [] []) 8 true]) = true := by
    simp [coherent, coherentBaseList, coherentFieldList, coherentVBaseList,
      pairwiseB, vbStart, fieldByteOff, bitsToBytes, BaseSpec.offset,
      BaseSpec.isVirtual, VBaseSpec.offset, VBaseSpec.hasVtorDisp,
      FieldEntry.offsetBits, BaseSpec.decl, VBaseSpec.decl, FieldEntry.kind]
  exact ⟨hc, computeStruct_children_offset_sorted ⟨64, 64, true⟩ _ true
    FileState.empty hc⟩

theorem computeBaseList_forall2 (ctx : Ctx) (p : Option Nat) :
    ∀ (l : List BaseSpec) (st : FileState),
      List.Forall₂ (fun (n : Node) (b : BaseSpec) => ∃ st',
        n = Node.mk { (computeStruct ctx b.decl false st').1.data with
                      offset := b.offset,
                      nature := if some b.decl.id == p then
                        Category.NVPrimaryBase else Category.NVBase }
              ((computeStruct ctx b.decl false st').1.children) ∧
        n.data.size = b.decl.nvSize ∧ n.data.align = b.decl.align)
      (computeBaseList ctx p l st).1 l := by
  intro l
  induction l with
  | nil =>
    intro st
    rw [computeBaseList]
    exact List.Forall₂.nil
  | cons b rest ih =>
    intro st
    obtain ⟨v, d, o⟩ := b
    rw [computeBaseList]
    refine List.Forall₂.cons ⟨st, rfl, ?_, ?_⟩ (ih _)
    · rw [Node.data_mk]
      have hd := computeStruct_data ctx d false st
      simp [hd, BaseSpec.decl, RecordDecl.nvSize]
    · rw [Node.data_mk]
      have hd := computeStruct_data ctx d false st
      simp [hd, BaseSpec.decl, RecordDecl.align]

/-- Claim C3 as amended: the direct non-virtual bases are stable-sorted
by their ABI byte offset ascending (sorted, a permutation of the
filtered direct bases, and offset-ties keep their declaration order);
the resulting segment sits right after the table-pointer part of
`children`; and each base node is the recursively built base sub-object
(`includeVirtualBases = false`, hence its `size` is the non-virtual-only
extent) with its offset overwritten by the ABI base offset and its
nature set to `NVPrimaryBase` exactly for the ABI's designated primary
base, else `NVBase`. Contrary to the original claim, the node's `align`
does NOT reflect the non-virtual-only extent: Parser.cpp:108 always uses
`layout.getAlignment()`, the base class's complete-object alignment,
which includes virtual-base contributions (`align = b.decl.align` below;
see the counterexample following the witness). -/
theorem computeStruct_nvbases_spec (ctx : Ctx) (d : RecordDecl) (ivb : Bool)
    (st : FileState) :
    (∃ tail, (computeStruct ctx d ivb st).1.children =
       vptrNodes ctx d
         ++ (computeBaseList ctx d.primaryBaseId (nvSorted d)
               (stAfterLoc d st)).1
         ++ tail) ∧
    List.Pairwise (fun a b => a.offset ≤ b.offset) (nvSorted d) ∧
    (nvSorted d).Perm (d.bases.filter (fun b => !b.isVirtual)) ∧
    (∀ a b, List.Sublist [a, b] (d.bases.filter (fun x => !x.isVirtual)) →
       a.offset ≤ b.offset → List.Sublist [a, b] (nvSorted d)) ∧
    List.Forall₂ (fun (n : Node) (b : BaseSpec) => ∃ st',
        n = Node.mk { (computeStruct ctx b.decl false st').1.data with
                      offset := b.offset,
                      nature := if some b.decl.id == d.primaryBaseId then
                        Category.NVPrimaryBase else Category.NVBase }
              ((computeStruct ctx b.decl false st').1.children) ∧
        n.data.size = b.decl.nvSize ∧ n.data.align = b.decl.align)
      (computeBaseList ctx d.primaryBaseId (nvSorted d) (stAfterLoc d st)).1
      (nvSorted d) := by
  refine ⟨?_, ?_, ?_, ?_, computeBaseList_forall2 ctx d.primaryBaseId _ _⟩
  · refine ⟨vbptrNodes ctx d
      ++ (computeFieldList ctx d.fields (stAfterBases ctx d st)).1
      ++ (if ivb then (computeVBaseList ctx d.primaryBaseId d.vbases
            (stAfterFields ctx d st)).1 else []), ?_⟩
    rw [computeStruct_children]
    simp [List.append_assoc]
  · have hs := @List.sorted_mergeSort BaseSpec baseLE
      baseLE_trans baseLE_total (d.bases.filter (fun b => !b.isVirtual))
    unfold nvSorted
    refine hs.imp ?_
    intro a b hab
    simpa [baseLE] using hab
  · exact List.mergeSort_perm _ _
  · intro a b hsub hle
    unfold nvSorted
    refine List.sublist_mergeSort baseLE_trans baseLE_total ?_ hsub
    refine List.pairwise_cons.mpr ⟨?_, List.pairwise_singleton _ _⟩
    intro x hx
    rcases List.mem_singleton.mp hx with rfl
    simpa [baseLE] using hle

/-- Witness for C3 at a record with two non-virtual bases declared at
offsets 0 and 4: the sorted base list is offset-ascending, is a
permutation of the filtered direct bases, and the declared ascending pair
stays a sublist of the sorted list. -/
theorem computeStruct_nvbases_spec_witness :
    List.Pairwise (fun a b => a.offset ≤ b.offset)
      (nvSorted (RecordDecl.mk 1 "D" ⟨false, false, false, 0, "", 0, 0⟩
        false 8 8 4 (some 3) false false 0
        [BaseSpec.mk false (RecordDecl.mk 3 "B2"
            ⟨false, false, false, 0, "", 0, 0⟩
            false 4 4 4 none false false 0 [] [] []) 0,
         BaseSpec.mk false (RecordDecl.mk 2 "B1"
            ⟨false, false, false, 0, "", 0, 0⟩
            false 4 4 4 none false false 0 [] [] []) 4] [] [])) ∧
    (nvSorted (RecordDecl.mk 1 "D" ⟨false, false, false, 0, "", 0, 0⟩
        false 8 8 4 (some 3) false false 0
        [BaseSpec.mk false (RecordDecl.mk 3 "B2"
            ⟨false, false, false, 0, "", 0, 0⟩
            false 4 4 4 none false false 0 [] [] []) 0,
         BaseSpec.mk false (RecordDecl.mk 2 "B1"
            ⟨false, false, false, 0, "", 0, 0⟩
            false 4 4 4 none false false 0 [] [] []) 4] [] [])).Perm
      ((RecordDecl.mk 1 "D" ⟨false, false, false, 0, "", 0, 0⟩
        false 8 8 4 (some 3) false false 0
        [BaseSpec.mk false (RecordDecl.mk 3 "B2"
            ⟨false, false, false, 0, "", 0, 0⟩
            false 4 4 4 none false false 0 [] [] []) 0,
         BaseSpec.mk false (RecordDecl.mk 2 "B1"
            ⟨false, false, false, 0, "", 0, 0⟩
            false 4 4 4 none false false 0 [] [] []) 4] [] []).bases.filter
        (fun b => !b.isVirtual)) := by
  have h := computeStruct_nvbases_spec ⟨64, 64, false⟩
    (RecordDecl.mk 1 "D" ⟨false, false, false, 0, "", 0, 0⟩
      false 8 8 4 (some 3) false false 0
      [BaseSpec.mk false (RecordDecl.mk 3 "B2"
          ⟨false, false, false, 0, "", 0, 0⟩
          false 4 4 4 none false false 0 [] [] []) 0,
       BaseSpec.mk false (RecordDecl.mk 2 "B1"
          ⟨false, false, false, 0, "", 0, 0⟩
          false 4 4 4 none false false 0 [] [] []) 4] [] [])
    true FileState.empty
  exact ⟨h.2.1, h.2.2.1⟩

theorem computeVBaseList_shape (ctx : Ctx) (p : Option Nat) :
    ∀ (l : List VBaseSpec) (st : FileState),
      ∃ sts : List FileState, sts.length = l.length ∧
      (computeVBaseList ctx p l st).1 =
        (l.zip sts).flatMap (fun pv =>
          (if pv.1.hasVtorDisp then
            [Node.mk { nature := Category.VtorDisp, offset := pv.1.offset - 4,
                       size := 4, align := 4 } []]
          else []) ++
          [Node.mk { (computeStruct ctx pv.1.decl false pv.2).1.data with
                     offset := pv.1.offset,
                     nature := if some pv.1.decl.id == p then
                       Category.VPrimaryBase else Category.VBase }
             ((computeStruct ctx pv.1.decl false pv.2).1.children)]) := by
  intro l
  induction l with
  | nil =>
    intro st
    refine ⟨[], rfl, ?_⟩
    rw [computeVBaseList]
    simp
  | cons v rest ih =>
    intro st
    obtain ⟨d, o, dp⟩ := v
    obtain ⟨sts, hlen, hshape⟩ := ih (computeStruct ctx d false st).2
    refine ⟨st :: sts, by simp [hlen], ?_⟩
    rw [computeVBaseList]
    simp only [List.zip_cons_cons, List.flatMap_cons]
    rw [← hshape]
    cases dp <;>
      simp [VBaseSpec.hasVtorDisp, VBaseSpec.offset, VBaseSpec.decl]

/-- Claim C4: with `includeVirtualBases = true`, for each virtual base in
declaration order the builder emits, when the ABI reports a required
displacement adjustment, a `VtorDisp` node of size 4 and alignment 4 at
the base's ABI offset minus 4, followed by the base built recursively
with `includeVirtualBases = false` at the ABI virtual-base offset and
tagged `VPrimaryBase` exactly for the designated primary base, else
`VBase`; with `includeVirtualBases = false` no virtual-base or
adjustment node is emitted. -/
theorem computeStruct_vbases_spec (ctx : Ctx) (d : RecordDecl)
    (st : FileState) :
    (∀ c ∈ (computeStruct ctx d false st).1.children,
       c.data.nature ≠ Category.VtorDisp ∧
       c.data.nature ≠ Category.VBase ∧
       c.data.nature ≠ Category.VPrimaryBase) ∧
    (∃ front sts, sts.length = d.vbases.length ∧
      (computeStruct ctx d true st).1.children =
        front ++ (d.vbases.zip sts).flatMap (fun pv =>
          (if pv.1.hasVtorDisp then
            [Node.mk { nature := Category.VtorDisp, offset := pv.1.offset - 4,
                       size := 4, align := 4 } []]
          else []) ++
          [Node.mk { (computeStruct ctx pv.1.decl false pv.2).1.data with
                     offset := pv.1.offset,
                     nature := if some pv.1.decl.id == d.primaryBaseId then
                       Category.VPrimaryBase else Category.VBase }
             ((computeStruct ctx pv.1.decl false pv.2).1.children)])) := by
  constructor
  · intro c hc
    rw [computeStruct_children] at hc
    rw [if_neg Bool.false_ne_true, List.append_nil] at hc
    rcases List.mem_append.mp hc with h3 | hFL
    · rcases List.mem_append.mp h3 with h2 | hC
      · rcases List.mem_append.mp h2 with hA | hBL
        · rcases (mem_vptrNodes hA).2.2 with h | h <;> simp [h]
        · rcases computeBaseList_natures ctx _ _ _ c hBL with h | h <;>
            simp [h]
      · have h := (mem_vbptrNodes hC).2.2.1
        simp [h]
    · rcases computeFieldList_natures ctx _ _ c hFL with h | h | h <;>
        simp [h]
  · obtain ⟨sts, hlen, hshape⟩ := computeVBaseList_shape ctx d.primaryBaseId
      d.vbases (stAfterFields ctx d st)
    refine ⟨vptrNodes ctx d
      ++ (computeBaseList ctx d.primaryBaseId (nvSorted d)
            (stAfterLoc d st)).1
      ++ vbptrNodes ctx d
      ++ (computeFieldList ctx d.fields (stAfterBases ctx d st)).1,
      sts, hlen, ?_⟩
    rw [computeStruct_children, if_pos rfl, hshape]

/-- Witness for C4: building a record (which has one vtordisp-requiring
virtual base) with `includeVirtualBases = false` emits no virtual-base or
adjustment child. -/
theorem computeStruct_vbases_spec_witness :
    ∀ c ∈ (computeStruct ⟨64, 64, true⟩
        (RecordDecl.mk 1 "A" ⟨false, false, false, 0, "", 0, 0⟩ false
          16 8 4 none false true 4 []
          [FieldEntry.mk "x" "int" ⟨false, false, false, 0, "", 0, 0⟩ 32
            (FieldKind.scalarType 32 32 none)]
          [VBaseSpec.mk (RecordDecl.mk 3 "V"
            ⟨false, false, false, 0, "", 0, 0⟩
            false 4 4 4 none false false 0 [] [] []) 8 true])
        false FileState.empty).1.children,
      c.data.nature ≠ Category.VtorDisp ∧
      c.data.nature ≠ Category.VBase ∧
      c.data.nature ≠ Category.VPrimaryBase :=
  (computeStruct_vbases_spec ⟨64, 64, true⟩
    (RecordDecl.mk 1 "A" ⟨false, false, false, 0, "", 0, 0⟩ false
      16 8 4 none false true 4 []
      [FieldEntry.mk "x" "int" ⟨false, false, false, 0, "", 0, 0⟩ 32
        (FieldKind.scalarType 32 32 none)]
      [VBaseSpec.mk (RecordDecl.mk 3 "V"
        ⟨false, false, false, 0, "", 0, 0⟩
        false 4 4 4 none false false 0 [] [] []) 8 true])
    FileState.empty).1

theorem computeFieldList_bitfield (ctx : Ctx) :
    ∀ (l : List FieldEntry) (st : FileState) (f : FieldEntry)
      (w a bw : Nat), f ∈ l →
      f.kind = FieldKind.scalarType w a (some bw) →
      ∃ c ∈ (computeFieldList ctx l st).1,
        c.data.nature = Category.Bitfield ∧
        c.data.name = f.name ∧
        c.data.typeName = f.typeName ∧
        c.data.offset = fieldByteOff f ∧
        c.data.size = bitsToBytes w ∧
        c.data.align = bitsToBytes a ∧
        c.children = [Node.mk { offset := (f.offsetBits : Int) - 8 * bitsToBytes f.offsetBits, size := (bw : Int) } []] := by
  intro l
  induction l with
  | nil =>
    intro st f w a bw hf _
    cases hf
  | cons g rest ih =>
    intro st f w a bw hf hk
    rcases List.mem_cons.mp hf with rfl | hf'
    · obtain ⟨fn, ft, lo, ob, k⟩ := f
      rw [FieldEntry.kind] at hk
      subst hk
      rw [computeFieldList]
      refine ⟨_, List.mem_cons_self _ _, ?_⟩
      simp [Node.data_mk, Node.children_mk, FieldEntry.name,
        FieldEntry.typeName, FieldEntry.offsetBits, fieldByteOff_mk]
    · obtain ⟨fn, ft, lo, ob, k⟩ := g
      cases k with
      | recordType r =>
        rw [computeFieldList]
        obtain ⟨c, hc, hrest⟩ := ih _ f w a bw hf' hk
        exact ⟨c, List.mem_cons_of_mem _ hc, hrest⟩
      | scalarType w2 a2 bi =>
        cases bi with
        | some bw2 =>
          rw [computeFieldList]
          obtain ⟨c, hc, hrest⟩ := ih _ f w a bw hf' hk
          exact ⟨c, List.mem_cons_of_mem _ hc, hrest⟩
        | none =>
          rw [computeFieldList]
          obtain ⟨c, hc, hrest⟩ := ih _ f w a bw hf' hk
          exact ⟨c, List.mem_cons_of_mem _ hc, hrest⟩

/-- Claim C5: every bitfield member yields a `Bitfield` child whose size
and alignment are the byte size and alignment of the field's underlying
scalar type (not its bit width), carrying exactly one child whose offset
is the field's bit offset within its byte-aligned slot (the bit offset
modulo 8) and whose size is the field's bit width. -/
theorem computeStruct_bitfield_spec (ctx : Ctx) (d : RecordDecl)
    (ivb : Bool) (st : FileState) (f : FieldEntry) (w a bw : Nat)
    (hf : f ∈ d.fields)
    (hk : f.kind = FieldKind.scalarType w a (some bw)) :
    ∃ c ∈ (computeStruct ctx d ivb st).1.children,
      c.data.nature = Category.Bitfield ∧
      c.data.name = f.name ∧
      c.data.typeName = f.typeName ∧
      c.data.offset = fieldByteOff f ∧
      c.data.size = bitsToBytes w ∧
      c.data.align = bitsToBytes a ∧
      c.children = [Node.mk { offset := (f.offsetBits : Int) - 8 * bitsToBytes f.offsetBits, size := (bw : Int) } []] ∧
      (f.offsetBits : Int) - 8 * bitsToBytes f.offsetBits
        = ((f.offsetBits % 8 : Nat) : Int) := by
  obtain ⟨c, hc, h1, h2, h3, h4, h5, h6, h7⟩ :=
    computeFieldList_bitfield ctx d.fields (stAfterBases ctx d st) f w a bw
      hf hk
  refine ⟨c, ?_, h1, h2, h3, h4, h5, h6, h7, ?_⟩
  · rw [computeStruct_children]
    exact List.mem_append_left _ (List.mem_append_right _ hc)
  · unfold bitsToBytes
    push_cast
    omega

/-- Witness for C5: a field `unsigned a : 3` at bit offset 0 of a 4-byte
(32-bit) unsigned yields a `Bitfield` node of byte size 4 and alignment 4
whose single child carries offset 0 and size 3. -/
theorem computeStruct_bitfield_spec_witness :
    ∃ c ∈ (computeStruct ⟨64, 64, false⟩
        (RecordDecl.mk 1 "S" ⟨false, false, false, 0, "", 0, 0⟩ false
          4 4 4 none false false 0 []
          [FieldEntry.mk "a" "unsigned int" ⟨false, false, false, 0, "", 0, 0⟩
            0 (FieldKind.scalarType 32 32 (some 3))] [])
        true FileState.empty).1.children,
      c.data.nature = Category.Bitfield ∧
      c.data.name = "a" ∧
      c.data.size = 4 ∧
      c.data.align = 4 ∧
      c.data.offset = 0 ∧
      c.children = [Node.mk { offset := 0, size := 3 } []] := by
  obtain ⟨c, hc, h1, h2, h3, h4, h5, h6, h7, h8⟩ :=
    computeStruct_bitfield_spec ⟨64, 64, false⟩
      (RecordDecl.mk 1 "S" ⟨false, false, false, 0, "", 0, 0⟩ false
        4 4 4 none false false 0 []
        [FieldEntry.mk "a" "unsigned int" ⟨false, false, false, 0, "", 0, 0⟩
          0 (FieldKind.scalarType 32 32 (some 3))] [])
      true FileState.empty
      (FieldEntry.mk "a" "unsigned int" ⟨false, false, false, 0, "", 0, 0⟩
        0 (FieldKind.scalarType 32 32 (some 3)))
      32 32 3 (by simp [RecordDecl.fields]) rfl
  refine ⟨c, hc, h1, by simpa [FieldEntry.name] using h2, ?_, ?_, ?_, ?_⟩
  · rw [h5]
    rfl
  · rw [h6]
    rfl
  · rw [h4]
    rfl
  · rw [h7]
    norm_num [FieldEntry.offsetBits, bitsToBytes]

theorem mem_vptrNodes_size {ctx : Ctx} {d : RecordDecl} {n : Node}
    (hn : n ∈ vptrNodes ctx d) :
    n.data.size = bitsToBytes ctx.pointerWidthBits ∧
    n.data.align = bitsToBytes ctx.pointerAlignBits := by
  unfold vptrNodes at hn
  split at hn
  · rcases List.mem_singleton.mp hn with rfl
    simp [mkTablePtrNode, Node.data_mk]
  · split at hn
    · rcases List.mem_singleton.mp hn with rfl
      simp [mkTablePtrNode, Node.data_mk]
    · cases hn

theorem mem_vbptrNodes_size {ctx : Ctx} {d : RecordDecl} {n : Node}
    (hn : n ∈ vbptrNodes ctx d) :
    n.data.size = bitsToBytes ctx.pointerWidthBits ∧
    n.data.align = bitsToBytes ctx.pointerAlignBits := by
  unfold vbptrNodes at hn
  split at hn
  · rcases List.mem_singleton.mp hn with rfl
    simp [mkTablePtrNode, Node.data_mk]
  · cases hn

theorem childTablePtr_mem_vptrNodes {ctx : Ctx} {d : RecordDecl}
    {ivb : Bool} {st : FileState} {c : Node}
    (hc : c ∈ (computeStruct ctx d ivb st).1.children)
    (hnat : c.data.nature = Category.VTablePtr ∨
      c.data.nature = Category.VFTablePtr) :
    c ∈ vptrNodes ctx d := by
  rw [computeStruct_children] at hc
  rcases List.mem_append.mp hc with h4 | hE
  · rcases List.mem_append.mp h4 with h3 | hFL
    · rcases List.mem_append.mp h3 with h2 | hC
      · rcases List.mem_append.mp h2 with hA | hBL
        · exact hA
        · rcases computeBaseList_natures ctx _ _ _ c hBL with h | h <;>
            rcases hnat with hn | hn <;> rw [h] at hn <;> cases hn
      · have h := (mem_vbptrNodes hC).2.2.1
        rcases hnat with hn | hn <;> rw [h] at hn <;> cases hn
    · rcases computeFieldList_natures ctx _ _ c hFL with h | h | h <;>
        rcases hnat with hn | hn <;> rw [h] at hn <;> cases hn
  · rcases (by cases ivb with
        | false => rw [if_neg Bool.false_ne_true] at hE; cases hE
        | true =>
          rw [if_pos rfl] at hE
          exact computeVBaseList_natures ctx _ _ _ c hE :
      c.data.nature = Category.VtorDisp ∨
        c.data.nature = Category.VPrimaryBase ∨
        c.data.nature = Category.VBase) with h | h | h <;>
      rcases hnat with hn | hn <;> rw [h] at hn <;> cases hn

theorem childVBTablePtr_mem_vbptrNodes {ctx : Ctx} {d : RecordDecl}
    {ivb : Bool} {st : FileState} {c : Node}
    (hc : c ∈ (computeStruct ctx d ivb st).1.children)
    (hnat : c.data.nature = Category.VBTablePtr) :
    c ∈ vbptrNodes ctx d := by
  rw [computeStruct_children] at hc
  rcases List.mem_append.mp hc with h4 | hE
  · rcases List.mem_append.mp h4 with h3 | hFL
    · rcases List.mem_append.mp h3 with h2 | hC
      · rcases List.mem_append.mp h2 with hA | hBL
        · rcases (mem_vptrNodes hA).2.2 with h | h <;> rw [h] at hnat <;>
            cases hnat
        · rcases computeBaseList_natures ctx _ _ _ c hBL with h | h <;>
            rw [h] at hnat <;> cases hnat
      · exact hC
    · rcases computeFieldList_natures ctx _ _ c hFL with h | h | h <;>
        rw [h] at hnat <;> cases hnat
  · rcases (by cases ivb with
        | false => rw [if_neg Bool.false_ne_true] at hE; cases hE
        | true =>
          rw [if_pos rfl] at hE
          exact computeVBaseList_natures ctx _ _ _ c hE :
      c.data.nature = Category.VtorDisp ∨
        c.data.nature = Category.VPrimaryBase ∨
        c.data.nature = Category.VBase) with h | h | h <;>
      rw [h] at hnat <;> cases hnat

/-- Claim C6: a built node never has both a `VTablePtr` and a
`VFTablePtr` child; any such child sits at offset 0 with the target's
pointer byte width and alignment; and a `VBTablePtr` child exists exactly
when the ABI reports the class owns its vbtable pointer, at the
ABI-reported vbtable-pointer offset with pointer size and alignment. -/
theorem computeStruct_tableptr_spec (ctx : Ctx) (d : RecordDecl)
    (ivb : Bool) (st : FileState) :
    ¬((∃ c ∈ (computeStruct ctx d ivb st).1.children,
         c.data.nature = Category.VTablePtr) ∧
      (∃ c ∈ (computeStruct ctx d ivb st).1.children,
         c.data.nature = Category.VFTablePtr)) ∧
    (∀ c ∈ (computeStruct ctx d ivb st).1.children,
       c.data.nature = Category.VTablePtr ∨
         c.data.nature = Category.VFTablePtr →
       c.data.offset = 0 ∧
         c.data.size = bitsToBytes ctx.pointerWidthBits ∧
         c.data.align = bitsToBytes ctx.pointerAlignBits) ∧
    ((∃ c ∈ (computeStruct ctx d ivb st).1.children,
        c.data.nature = Category.VBTablePtr) ↔ d.hasOwnVBPtr = true) ∧
    (∀ c ∈ (computeStruct ctx d ivb st).1.children,
       c.data.nature = Category.VBTablePtr →
       c.data.offset = d.vbptrOffset ∧
         c.data.size = bitsToBytes ctx.pointerWidthBits ∧
         c.data.align = bitsToBytes ctx.pointerAlignBits) := by
  refine ⟨?_, ?_, ⟨?_, ?_⟩, ?_⟩
  · rintro ⟨⟨c1, hc1, hn1⟩, ⟨c2, hc2, hn2⟩⟩
    have m1 := childTablePtr_mem_vptrNodes hc1 (Or.inl hn1)
    have m2 := childTablePtr_mem_vptrNodes hc2 (Or.inr hn2)
    by_cases h1 : (d.isDynamicClass && d.primaryBaseId.isNone &&
        !ctx.isMicrosoft) = true
    · unfold vptrNodes at m2
      rw [if_pos h1] at m2
      rcases List.mem_singleton.mp m2 with rfl
      simp [mkTablePtrNode, Node.data_mk] at hn2
    · by_cases h2 : d.hasOwnVFPtr = true
      · unfold vptrNodes at m1
        rw [if_neg h1, if_pos h2] at m1
        rcases List.mem_singleton.mp m1 with rfl
        simp [mkTablePtrNode, Node.data_mk] at hn1
      · unfold vptrNodes at m1
        rw [if_neg h1, if_neg h2] at m1
        cases m1
  · intro c hc hnat
    have m := childTablePtr_mem_vptrNodes hc hnat
    exact ⟨(mem_vptrNodes m).1, (mem_vptrNodes_size m).1,
      (mem_vptrNodes_size m).2⟩
  · rintro ⟨c, hc, hn⟩
    exact (mem_vbptrNodes (childVBTablePtr_mem_vbptrNodes hc hn)).2.2.2
  · intro hvb
    refine ⟨mkTablePtrNode ctx Category.VBTablePtr d.vbptrOffset, ?_, ?_⟩
    · rw [computeStruct_children]
      refine List.mem_append_left _ (List.mem_append_left _
        (List.mem_append_right _ ?_))
      rw [vbptrNodes, if_pos hvb]
      exact List.mem_singleton.mpr rfl
    · simp [mkTablePtrNode, Node.data_mk]
  · intro c hc hnat
    have m := childVBTablePtr_mem_vbptrNodes hc hnat
    exact ⟨(mem_vbptrNodes m).1, (mem_vbptrNodes_size m).1,
      (mem_vbptrNodes_size m).2⟩

/-- Witness for C6: a record owning its vbtable pointer gets a
`VBTablePtr` child, and no child set ever holds both vtable-pointer
variants. -/
theorem computeStruct_tableptr_spec_witness :
    (∃ c ∈ (computeStruct ⟨64, 64, true⟩
        (RecordDecl.mk 1 "A" ⟨false, false, false, 0, "", 0, 0⟩ false
          16 8 4 none false true 4 [] [] [])
        true FileState.empty).1.children,
      c.data.nature = Category.VBTablePtr) ∧
    ¬((∃ c ∈ (computeStruct ⟨64, 64, true⟩
        (RecordDecl.mk 1 "A" ⟨false, false, false, 0, "", 0, 0⟩ false
          16 8 4 none false true 4 [] [] [])
        true FileState.empty).1.children,
      c.data.nature = Category.VTablePtr) ∧
      (∃ c ∈ (computeStruct ⟨64, 64, true⟩
        (RecordDecl.mk 1 "A" ⟨false, false, false, 0, "", 0, 0⟩ false
          16 8 4 none false true 4 [] [] [])
        true FileState.empty).1.children,
      c.data.nature = Category.VFTablePtr)) := by
  have h := computeStruct_tableptr_spec ⟨64, 64, true⟩
    (RecordDecl.mk 1 "A" ⟨false, false, false, 0, "", 0, 0⟩ false
      16 8 4 none false true 4 [] [] []) true FileState.empty
  exact ⟨h.2.2.1.mpr rfl, h.1⟩

theorem bitfieldNoLocMaster (ctx : Ctx) :
    (∀ (d : RecordDecl) (ivb : Bool) (st : FileState),
      ∀ m ∈ ((computeStruct ctx d ivb st).1).subnodes,
        m.data.nature = Category.Bitfield → m.data.fieldLocation = none) ∧
    (∀ (p : Option Nat) (l : List VBaseSpec) (st : FileState),
      ∀ m ∈ subnodesList (computeVBaseList ctx p l st).1,
        m.data.nature = Category.Bitfield → m.data.fieldLocation = none) ∧
    (∀ (l : List FieldEntry) (st : FileState),
      ∀ m ∈ subnodesList (computeFieldList ctx l st).1,
        m.data.nature = Category.Bitfield → m.data.fieldLocation = none) ∧
    (∀ (p : Option Nat) (l : List BaseSpec) (st : FileState),
      ∀ m ∈ subnodesList (computeBaseList ctx p l st).1,
        m.data.nature = Category.Bitfield → m.data.fieldLocation = none) := by
  refine computeStruct.mutual_induct ctx _ _ _ _ ?t1 ?t2 ?t3 ?t4 ?t5 ?t6 ?t7
    ?t8 ?t9
  case t1 =>
    intro ivb st i qn loc dyn size nvsize align pid hvf hvb vbo bases fields
      vbases
    dsimp only
    intro ih4a ih4b ih3a ih3b ih2
    intro m hm hnat
    rw [Node.subnodes_eq, computeStruct_children] at hm
    rcases List.mem_cons.mp hm with rfl | hmtail
    · rw [computeStruct_data] at hnat
      cases hnat
    · simp only [RecordDecl.primaryBaseId, RecordDecl.bases,
        RecordDecl.fields, RecordDecl.vbases, RecordDecl.loc, nvSorted,
        stAfterLoc, stAfterBases, stAfterFields] at hmtail
      rw [subnodesList_append, subnodesList_append, subnodesList_append,
        subnodesList_append] at hmtail
      rcases List.mem_append.mp hmtail with h4 | hE
      · rcases List.mem_append.mp h4 with h3 | hFL
        · rcases List.mem_append.mp h3 with h2 | hC
          · rcases List.mem_append.mp h2 with hA | hBL
            · rw [subnodesList_vptrNodes] at hA
              rcases (mem_vptrNodes hA).2.2 with h | h <;> rw [h] at hnat <;>
                cases hnat
            · exact ih4a m hBL hnat
          · rw [subnodesList_vbptrNodes] at hC
            have h := (mem_vbptrNodes hC).2.2.1
            rw [h] at hnat
            cases hnat
        · exact ih3a m hFL hnat
      · cases ivb with
        | false =>
          rw [if_neg Bool.false_ne_true, subnodesList] at hE
          cases hE
        | true =>
          rw [if_pos rfl] at hE
          exact ih2 m hE hnat
  case t2 =>
    intro p st m hm
    rw [computeVBaseList, subnodesList] at hm
    cases hm
  case t3 =>
    intro p d off disp rest st
    dsimp only
    intro ih1 ih2 m hm hnat
    rw [computeVBaseList] at hm
    rw [subnodesList_append] at hm
    rcases List.mem_append.mp hm with hm' | hm'
    · cases disp with
      | true =>
        rw [if_pos rfl] at hm'
        simp only [subnodesList, Node.subnodes_eq, Node.children_mk,
          List.append_nil] at hm'
        rcases List.mem_singleton.mp hm' with rfl
        cases hnat
      | false =>
        rw [if_neg Bool.false_ne_true, subnodesList] at hm'
        cases hm'
    · rw [subnodesList] at hm'
      rcases List.mem_append.mp hm' with hm2 | hm2
      · rw [Node.subnodes_eq, Node.children_mk] at hm2
        rcases List.mem_cons.mp hm2 with rfl | hm3
        · rw [Node.data_mk] at hnat
          simp only at hnat
          split at hnat <;> cases hnat
        · have hmem : m ∈ (computeStruct ctx d false st).1.subnodes := by
            rw [Node.subnodes_eq]
            exact List.mem_cons_of_mem _ hm3
          exact ih1 m hmem hnat
      · exact ih2 m hm2 hnat
  case t4 =>
    intro st m hm
    rw [computeFieldList, subnodesList] at hm
    cases hm
  case t5 =>
    intro fname ftype floc offBits rest st r
    dsimp only
    intro ih1 ih3 m hm hnat
    rw [computeFieldList] at hm
    rw [subnodesList] at hm
    rcases List.mem_append.mp hm with hm' | hm'
    · rw [Node.subnodes_eq, Node.children_mk] at hm'
      rcases List.mem_cons.mp hm' with rfl | hm''
      · rw [Node.data_mk] at hnat
        cases hnat
      · have hmem : m ∈ (computeStruct ctx r true st).1.subnodes := by
          rw [Node.subnodes_eq]
          exact List.mem_cons_of_mem _ hm''
        exact ih1 m hmem hnat
    · exact ih3 m hm' hnat
  case t6 =>
    intro fname ftype floc offBits rest st w a bw
    intro ih3 m hm hnat
    rw [computeFieldList] at hm
    rw [subnodesList] at hm
    rcases List.mem_append.mp hm with hm' | hm'
    · rw [Node.subnodes_eq, Node.children_mk] at hm'
      rcases List.mem_cons.mp hm' with rfl | hm''
      · rw [Node.data_mk]
      · simp only [subnodesList, Node.subnodes_eq, Node.children_mk,
          List.append_nil] at hm''
        rcases List.mem_singleton.mp hm'' with rfl
        rw [Node.data_mk]
    · exact ih3 m hm' hnat
  case t7 =>
    intro fname ftype floc offBits rest st w a
    dsimp only
    intro ih3 m hm hnat
    rw [computeFieldList] at hm
    rw [subnodesList] at hm
    rcases List.mem_append.mp hm with hm' | hm'
    · rw [Node.subnodes_eq, Node.children_mk, subnodesList] at hm'
      rcases List.mem_cons.mp hm' with rfl | hm''
      · rw [Node.data_mk] at hnat
        cases hnat
      · cases hm''
    · exact ih3 m hm' hnat
  case t8 =>
    intro p st m hm
    rw [computeBaseList, subnodesList] at hm
    cases hm
  case t9 =>
    intro p v d off rest st
    dsimp only
    intro ih1 ih4 m hm hnat
    rw [computeBaseList] at hm
    rw [subnodesList] at hm
    rcases List.mem_append.mp hm with hm' | hm'
    · rw [Node.subnodes_eq, Node.children_mk] at hm'
      rcases List.mem_cons.mp hm' with rfl | hm''
      · rw [Node.data_mk] at hnat
        simp only at hnat
        split at hnat <;> cases hnat
      · have hmem : m ∈ (computeStruct ctx d false st).1.subnodes := by
          rw [Node.subnodes_eq]
          exact List.mem_cons_of_mem _ hm''
        exact ih1 m hmem hnat
    · exact ih4 m hm' hnat

theorem retrieveLocation_valid_isSome {loc : SrcLoc} (st : FileState)
    (h1 : loc.valid = true) (h2 : loc.presumedValid = true)
    (h3 : loc.fileIdValid = true) :
    (retrieveLocation loc st).1.isSome = true := by
  simp [retrieveLocation, h1, h2, h3]

theorem computeFieldList_located (ctx : Ctx) :
    ∀ (l : List FieldEntry) (st : FileState) (f : FieldEntry), f ∈ l →
      f.loc.valid = true → f.loc.presumedValid = true →
      f.loc.fileIdValid = true →
      (∀ w a, f.kind = FieldKind.scalarType w a none →
        ∃ c ∈ (computeFieldList ctx l st).1,
          c.data.nature = Category.SimpleField ∧ c.data.name = f.name ∧
          c.data.offset = fieldByteOff f ∧
          c.data.fieldLocation.isSome = true) ∧
      (∀ r, f.kind = FieldKind.recordType r →
        ∃ c ∈ (computeFieldList ctx l st).1,
          c.data.nature = Category.ComplexField ∧ c.data.name = f.name ∧
          c.data.offset = fieldByteOff f ∧
          c.data.fieldLocation.isSome = true) := by
  intro l
  induction l with
  | nil =>
    intro st f hf
    cases hf
  | cons g rest ih =>
    intro st f hf h1 h2 h3
    rcases List.mem_cons.mp hf with rfl | hf'
    · obtain ⟨fn, ft, lo, ob, k⟩ := f
      rw [FieldEntry.loc] at h1 h2 h3
      constructor
      · intro w a hk
        rw [FieldEntry.kind] at hk
        subst hk
        rw [computeFieldList]
        refine ⟨_, List.mem_cons_self _ _, ?_⟩
        refine ⟨rfl, rfl, rfl, ?_⟩
        rw [Node.data_mk]
        exact retrieveLocation_valid_isSome st h1 h2 h3
      · intro r hk
        rw [FieldEntry.kind] at hk
        subst hk
        rw [computeFieldList]
        refine ⟨_, List.mem_cons_self _ _, ?_⟩
        refine ⟨rfl, rfl, rfl, ?_⟩
        rw [Node.data_mk]
        exact retrieveLocation_valid_isSome _ h1 h2 h3
    · obtain ⟨fn, ft, lo, ob, k⟩ := g
      have tailcase : ∀ (st2 : FileState),
          (∀ w a, f.kind = FieldKind.scalarType w a none →
            ∃ c ∈ (computeFieldList ctx rest st2).1,
              c.data.nature = Category.SimpleField ∧ c.data.name = f.name ∧
              c.data.offset = fieldByteOff f ∧
              c.data.fieldLocation.isSome = true) ∧
          (∀ r, f.kind = FieldKind.recordType r →
            ∃ c ∈ (computeFieldList ctx rest st2).1,
              c.data.nature = Category.ComplexField ∧ c.data.name = f.name ∧
              c.data.offset = fieldByteOff f ∧
              c.data.fieldLocation.isSome = true) :=
        fun st2 => ih st2 f hf' h1 h2 h3
      cases k with
      | recordType r =>
        rw [computeFieldList]
        refine ⟨?_, ?_⟩
        · intro w a hk
          obtain ⟨c, hc, hrest⟩ := (tailcase _).1 w a hk
          exact ⟨c, List.mem_cons_of_mem _ hc, hrest⟩
        · intro r2 hk
          obtain ⟨c, hc, hrest⟩ := (tailcase _).2 r2 hk
          exact ⟨c, List.mem_cons_of_mem _ hc, hrest⟩
      | scalarType w2 a2 bi =>
        cases bi with
        | some bw2 =>
          rw [computeFieldList]
          refine ⟨?_, ?_⟩
          · intro w a hk
            obtain ⟨c, hc, hrest⟩ := (tailcase _).1 w a hk
            exact ⟨c, List.mem_cons_of_mem _ hc, hrest⟩
          · intro r2 hk
            obtain ⟨c, hc, hrest⟩ := (tailcase _).2 r2 hk
            exact ⟨c, List.mem_cons_of_mem _ hc, hrest⟩
        | none =>
          rw [computeFieldList]
          refine ⟨?_, ?_⟩
          · intro w a hk
            obtain ⟨c, hc, hrest⟩ := (tailcase _).1 w a hk
            exact ⟨c, List.mem_cons_of_mem _ hc, hrest⟩
          · intro r2 hk
            obtain ⟨c, hc, hrest⟩ := (tailcase _).2 r2 hk
            exact ⟨c, List.mem_cons_of_mem _ hc, hrest⟩

/-- Claim C10: Bitfield-natured nodes anywhere in the built tree never
carry a `fieldLocation`, even when the field's source location is valid;
simple and record-typed field nodes with a fully resolvable location do
carry one; and processing a bitfield field leaves the file table exactly
as it was, so no file is ever interned on account of a bitfield. -/
theorem computeStruct_bitfield_location_spec (ctx : Ctx) (d : RecordDecl)
    (ivb : Bool) (st : FileState) :
    (∀ m ∈ ((computeStruct ctx d ivb st).1).subnodes,
       m.data.nature = Category.Bitfield → m.data.fieldLocation = none) ∧
    (∀ f ∈ d.fields, f.loc.valid = true → f.loc.presumedValid = true →
       f.loc.fileIdValid = true →
       (∀ w a, f.kind = FieldKind.scalarType w a none →
         ∃ c ∈ (computeStruct ctx d ivb st).1.children,
           c.data.nature = Category.SimpleField ∧ c.data.name = f.name ∧
           c.data.offset = fieldByteOff f ∧
           c.data.fieldLocation.isSome = true) ∧
       (∀ r, f.kind = FieldKind.recordType r →
         ∃ c ∈ (computeStruct ctx d ivb st).1.children,
           c.data.nature = Category.ComplexField ∧ c.data.name = f.name ∧
           c.data.offset = fieldByteOff f ∧
           c.data.fieldLocation.isSome = true)) ∧
    (∀ (fn ft : String) (lo : SrcLoc) (ob w a bw : Nat) (st2 : FileState),
       (computeFieldList ctx [FieldEntry.mk fn ft lo ob
          (FieldKind.scalarType w a (some bw))] st2).2 = st2) := by
  refine ⟨(bitfieldNoLocMaster ctx).1 d ivb st, ?_, ?_⟩
  · intro f hf h1 h2 h3
    have hbase := computeFieldList_located ctx d.fields
      (stAfterBases ctx d st) f hf h1 h2 h3
    constructor
    · intro w a hk
      obtain ⟨c, hc, hrest⟩ := hbase.1 w a hk
      refine ⟨c, ?_, hrest⟩
      rw [computeStruct_children]
      exact List.mem_append_left _ (List.mem_append_right _ hc)
    · intro r hk
      obtain ⟨c, hc, hrest⟩ := hbase.2 r hk
      refine ⟨c, ?_, hrest⟩
      rw [computeStruct_children]
      exact List.mem_append_left _ (List.mem_append_right _ hc)
  · intro fn ft lo ob w a bw st2
    rw [computeFieldList, computeFieldList]

/-- Witness for C10: on a record with a bitfield and a simple field whose
location is valid, the bitfield-natured nodes carry no location, the
simple field's node carries one, and processing the bitfield alone leaves
the file table untouched. -/
theorem computeStruct_bitfield_location_spec_witness :
    (∀ m ∈ ((computeStruct ⟨32, 32, false⟩
        (RecordDecl.mk 1 "S" ⟨true, true, true, 7, "s.h", 2, 1⟩ false
          8 8 4 none false false 0 []
          [FieldEntry.mk "b" "unsigned int" ⟨true, true, true, 7, "s.h", 3, 3⟩
            0 (FieldKind.scalarType 32 32 (some 5)),
           FieldEntry.mk "y" "int" ⟨true, true, true, 7, "s.h", 4, 3⟩
            32 (FieldKind.scalarType 32 32 none)] [])
        true FileState.empty).1).subnodes,
      m.data.nature = Category.Bitfield → m.data.fieldLocation = none) ∧
    (∃ c ∈ (computeStruct ⟨32, 32, false⟩
        (RecordDecl.mk 1 "S" ⟨true, true, true, 7, "s.h", 2, 1⟩ false
          8 8 4 none false false 0 []
          [FieldEntry.mk "b" "unsigned int" ⟨true, true, true, 7, "s.h", 3, 3⟩
            0 (FieldKind.scalarType 32 32 (some 5)),
           FieldEntry.mk "y" "int" ⟨true, true, true, 7, "s.h", 4, 3⟩
            32 (FieldKind.scalarType 32 32 none)] [])
        true FileState.empty).1.children,
      c.data.nature = Category.SimpleField ∧ c.data.name = "y" ∧
      c.data.offset = 4 ∧ c.data.fieldLocation.isSome = true) ∧
    ((computeFieldList ⟨32, 32, false⟩
        [FieldEntry.mk "b" "unsigned int" ⟨true, true, true, 7, "s.h", 3, 3⟩
          0 (FieldKind.scalarType 32 32 (some 5))] FileState.empty).2
      = FileState.empty) := by
  have h := computeStruct_bitfield_location_spec ⟨32, 32, false⟩
    (RecordDecl.mk 1 "S" ⟨true, true, true, 7, "s.h", 2, 1⟩ false
      8 8 4 none false false 0 []
      [FieldEntry.mk "b" "unsigned int" ⟨true, true, true, 7, "s.h", 3, 3⟩
        0 (FieldKind.scalarType 32 32 (some 5)),
       FieldEntry.mk "y" "int" ⟨true, true, true, 7, "s.h", 4, 3⟩
        32 (FieldKind.scalarType 32 32 none)] [])
    true FileState.empty
  refine ⟨h.1, ?_, h.2.2 "b" "unsigned int" ⟨true, true, true, 7, "s.h", 3, 3⟩
    0 32 32 5 FileState.empty⟩
  obtain ⟨c, hc, hn, hname, hoff, hsome⟩ :=
    (h.2.1 (FieldEntry.mk "y" "int" ⟨true, true, true, 7, "s.h", 4, 3⟩
        32 (FieldKind.scalarType 32 32 none))
      (by simp [RecordDecl.fields]) rfl rfl rfl).1 32 32 rfl
  refine ⟨c, hc, hn, by simpa [FieldEntry.name] using hname, ?_, hsome⟩
  rw [hoff]
  norm_num [fieldByteOff_mk, bitsToBytes]

/-- Counterexample to C1 as stated: mirror of
`struct B { virtual void f(); }; struct D : virtual B { long x; };`
under the Itanium ABI, where the nearly-empty virtual base B is the
primary base at offset 0 (`getPrimaryBase() = B`, so no vtable-pointer
node is emitted), the field x sits at byte 8, and the virtual-base loop
then appends B's node at offset 0. The root's children offsets come out
as [8, 0] — not ascending — refuting the unconditional claim; `coherent`
indeed evaluates to false on this record. -/
theorem computeStruct_children_offset_sorted_counterexample :
    ((computeStruct ⟨64, 64, false⟩
        (RecordDecl.mk 1 "D" ⟨false, false, false, 0, "", 0, 0⟩ true
          16 16 8 (some 2) false false 0
          [BaseSpec.mk true (RecordDecl.mk 2 "B"
            ⟨false, false, false, 0, "", 0, 0⟩
            true 8 8 8 none false false 0 [] [] []) 0]
          [FieldEntry.mk "x" "long" ⟨false, false, false, 0, "", 0, 0⟩ 64
            (FieldKind.scalarType 64 64 none)]
          [VBaseSpec.mk (RecordDecl.mk 2 "B"
            ⟨false, false, false, 0, "", 0, 0⟩
            true 8 8 8 none false false 0 [] [] []) 0 false])
        true FileState.empty).1.children.map (fun n => n.data.offset)
      = [8, 0]) ∧
    ¬ List.Pairwise (fun a b => a.data.offset ≤ b.data.offset)
        ((computeStruct ⟨64, 64, false⟩
          (RecordDecl.mk 1 "D" ⟨false, false, false, 0, "", 0, 0⟩ true
            16 16 8 (some 2) false false 0
            [BaseSpec.mk true (RecordDecl.mk 2 "B"
              ⟨false, false, false, 0, "", 0, 0⟩
              true 8 8 8 none false false 0 [] [] []) 0]
            [FieldEntry.mk "x" "long" ⟨false, false, false, 0, "", 0, 0⟩ 64
              (FieldKind.scalarType 64 64 none)]
            [VBaseSpec.mk (RecordDecl.mk 2 "B"
              ⟨false, false, false, 0, "", 0, 0⟩
              true 8 8 8 none false false 0 [] [] []) 0 false])
          true FileState.empty).1.children) ∧
    ¬ (∀ m ∈ ((computeStruct ⟨64, 64, false⟩
          (RecordDecl.mk 1 "D" ⟨false, false, false, 0, "", 0, 0⟩ true
            16 16 8 (some 2) false false 0
            [BaseSpec.mk true (RecordDecl.mk 2 "B"
              ⟨false, false, false, 0, "", 0, 0⟩
              true 8 8 8 none false false 0 [] [] []) 0]
            [FieldEntry.mk "x" "long" ⟨false, false, false, 0, "", 0, 0⟩ 64
              (FieldKind.scalarType 64 64 none)]
            [VBaseSpec.mk (RecordDecl.mk 2 "B"
              ⟨false, false, false, 0, "", 0, 0⟩
              true 8 8 8 none false false 0 [] [] []) 0 false])
          true FileState.empty).1).subnodes,
        List.Pairwise (fun a b => a.data.offset ≤ b.data.offset) m.children) ∧
    coherent (RecordDecl.mk 1 "D" ⟨false, false, false, 0, "", 0, 0⟩ true
      16 16 8 (some 2) false false 0
      [BaseSpec.mk true (RecordDecl.mk 2 "B"
        ⟨false, false, false, 0, "", 0, 0⟩
        true 8 8 8 none false false 0 [] [] []) 0]
      [FieldEntry.mk "x" "long" ⟨false, false, false, 0, "", 0, 0⟩ 64
        (FieldKind.scalarType 64 64 none)]
      [VBaseSpec.mk (RecordDecl.mk 2 "B"
        ⟨false, false, false, 0, "", 0, 0⟩
        true 8 8 8 none false false 0 [] [] []) 0 false]) = false := by
  have hmap : (computeStruct ⟨64, 64, false⟩
      (RecordDecl.mk 1 "D" ⟨false, false, false, 0, "", 0, 0⟩ true
        16 16 8 (some 2) false false 0
        [BaseSpec.mk true (RecordDecl.mk 2 "B"
          ⟨false, false, false, 0, "", 0, 0⟩
          true 8 8 8 none false false 0 [] [] []) 0]
        [FieldEntry.mk "x" "long" ⟨false, false, false, 0, "", 0, 0⟩ 64
          (FieldKind.scalarType 64 64 none)]
        [VBaseSpec.mk (RecordDecl.mk 2 "B"
          ⟨false, false, false, 0, "", 0, 0⟩
          true 8 8 8 none false false 0 [] [] []) 0 false])
      true FileState.empty).1.children.map (fun n => n.data.offset)
      = [8, 0] := by
    rw [computeStruct_children]
    rw [if_pos rfl]
    simp only [List.map_append, computeBaseList_map_offset,
      computeFieldList_map_offset, computeVBaseList_map_offset]
    simp [vptrNodes, vbptrNodes, nvSorted, RecordDecl.isDynamicClass,
      RecordDecl.primaryBaseId, RecordDecl.hasOwnVFPtr, RecordDecl.hasOwnVBPtr,
      RecordDecl.bases, RecordDecl.fields, RecordDecl.vbases,
      List.filter, BaseSpec.isVirtual, fieldByteOff_mk, bitsToBytes,
      VBaseSpec.hasVtorDisp_mk, vbaseSpecOffset_mk]
  have hnp : ¬ List.Pairwise (fun a b => a.data.offset ≤ b.data.offset)
      ((computeStruct ⟨64, 64, false⟩
        (RecordDecl.mk 1 "D" ⟨false, false, false, 0, "", 0, 0⟩ true
          16 16 8 (some 2) false false 0
          [BaseSpec.mk true (RecordDecl.mk 2 "B"
            ⟨false, false, false, 0, "", 0, 0⟩
            true 8 8 8 none false false 0 [] [] []) 0]
          [FieldEntry.mk "x" "long" ⟨false, false, false, 0, "", 0, 0⟩ 64
            (FieldKind.scalarType 64 64 none)]
          [VBaseSpec.mk (RecordDecl.mk 2 "B"
            ⟨false, false, false, 0, "", 0, 0⟩
            true 8 8 8 none false false 0 [] [] []) 0 false])
        true FileState.empty).1.children) := by
    intro hp
    have hm := List.pairwise_map.mpr hp
    rw [hmap] at hm
    rcases List.pairwise_cons.mp hm with ⟨hle, _⟩
    have := hle 0 (List.mem_singleton.mpr rfl)
    omega
  refine ⟨hmap, hnp, ?_, ?_⟩
  · intro hall
    exact hnp (hall _ (Node.self_mem_subnodes _))
  · simp [coherent, pairwiseB, vbStart, fieldByteOff, bitsToBytes,
      List.filter, BaseSpec.isVirtual, BaseSpec.decl, baseSpecOffset_mk,
      VBaseSpec.hasVtorDisp_mk, vbaseSpecOffset_mk, VBaseSpec.decl,
      FieldEntry.offsetBits, FieldEntry.kind, coherentBaseList,
      coherentFieldList, coherentVBaseList]

theorem computeStruct_singleBase (ctx : Ctx) (d : RecordDecl) (b : BaseSpec)
    (st : FileState) (hnv : nvSorted d = [b]) :
    ∃ c ∈ (computeStruct ctx d true st).1.children,
      c.data.nature = (if some b.decl.id == d.primaryBaseId then
        Category.NVPrimaryBase else Category.NVBase) ∧
      c.data.size = b.decl.nvSize ∧ c.data.align = b.decl.align := by
  have hf2 := computeBaseList_forall2 ctx d.primaryBaseId (nvSorted d)
    (stAfterLoc d st)
  rw [hnv] at hf2
  generalize hBL : (computeBaseList ctx d.primaryBaseId [b]
    (stAfterLoc d st)).1 = BL at hf2
  cases hf2 with
  | cons hrel htail =>
    rename_i c l1
    rcases hrel with ⟨st', hceq, hsize, halign⟩
    refine ⟨c, ?_, ?_, hsize, halign⟩
    · rw [computeStruct_children, hnv, hBL]
      refine List.mem_append_left _ (List.mem_append_left _
        (List.mem_append_left _ (List.mem_append_right _ ?_)))
      exact List.mem_cons_self _ _
    · rw [hceq, Node.data_mk]

/-- Counterexample to C3's align assertion: two base classes with
identical non-virtual extents (a vptr plus an `int b` at byte 8,
non-virtual size 16, identical field lists, no non-virtual bases) —
B1 mirroring `struct B1 : virtual V { int b; };` with an
`alignas(32)` virtual base V, and B2 mirroring
`struct B2 { virtual void f(); int b; };` without one — produce base
sub-object nodes with different aligns, 32 versus 8: the emitted align
is the complete-object alignment `layout.getAlignment()` including the
virtual base's contribution, not an alignment of the non-virtual-only
extent, which is identical for the two bases. -/
theorem computeStruct_nvbases_align_counterexample :
    (∃ c ∈ (computeStruct ⟨64, 64, false⟩ (RecordDecl.mk 1 "D1" ⟨false, false, false, 0, "", 0, 0⟩ true 64 16 32 (some 2) false false 0 [BaseSpec.mk false (RecordDecl.mk 2 "B1" ⟨false, false, false, 0, "", 0, 0⟩ true 64 16 32 none false false 0 [BaseSpec.mk true (RecordDecl.mk 4 "V" ⟨false, false, false, 0, "", 0, 0⟩ false 32 32 32 none false false 0 [] [] []) 0] [FieldEntry.mk "b" "int" ⟨false, false, false, 0, "", 0, 0⟩ 64 (FieldKind.scalarType 32 32 none)] [VBaseSpec.mk (RecordDecl.mk 4 "V" ⟨false, false, false, 0, "", 0, 0⟩ false 32 32 32 none false false 0 [] [] []) 32 false]) 0] [] [VBaseSpec.mk (RecordDecl.mk 4 "V" ⟨false, false, false, 0, "", 0, 0⟩ false 32 32 32 none false false 0 [] [] []) 32 false]) true FileState.empty).1.children,
      c.data.nature = Category.NVPrimaryBase ∧ c.data.size = 16 ∧
        c.data.align = 32) ∧
    (∃ c ∈ (computeStruct ⟨64, 64, false⟩ (RecordDecl.mk 5 "D2" ⟨false, false, false, 0, "", 0, 0⟩ true 16 16 8 (some 3) false false 0 [BaseSpec.mk false (RecordDecl.mk 3 "B2" ⟨false, false, false, 0, "", 0, 0⟩ true 16 16 8 none false false 0 [] [FieldEntry.mk "b" "int" ⟨false, false, false, 0, "", 0, 0⟩ 64 (FieldKind.scalarType 32 32 none)] []) 0] [] []) true FileState.empty).1.children,
      c.data.nature = Category.NVPrimaryBase ∧ c.data.size = 16 ∧
        c.data.align = 8) ∧
    (RecordDecl.mk 2 "B1" ⟨false, false, false, 0, "", 0, 0⟩ true 64 16 32 none false false 0 [BaseSpec.mk true (RecordDecl.mk 4 "V" ⟨false, false, false, 0, "", 0, 0⟩ false 32 32 32 none false false 0 [] [] []) 0] [FieldEntry.mk "b" "int" ⟨false, false, false, 0, "", 0, 0⟩ 64 (FieldKind.scalarType 32 32 none)] [VBaseSpec.mk (RecordDecl.mk 4 "V" ⟨false, false, false, 0, "", 0, 0⟩ false 32 32 32 none false false 0 [] [] []) 32 false]).nvSize = (RecordDecl.mk 3 "B2" ⟨false, false, false, 0, "", 0, 0⟩ true 16 16 8 none false false 0 [] [FieldEntry.mk "b" "int" ⟨false, false, false, 0, "", 0, 0⟩ 64 (FieldKind.scalarType 32 32 none)] []).nvSize ∧
    (RecordDecl.mk 2 "B1" ⟨false, false, false, 0, "", 0, 0⟩ true 64 16 32 none false false 0 [BaseSpec.mk true (RecordDecl.mk 4 "V" ⟨false, false, false, 0, "", 0, 0⟩ false 32 32 32 none false false 0 [] [] []) 0] [FieldEntry.mk "b" "int" ⟨false, false, false, 0, "", 0, 0⟩ 64 (FieldKind.scalarType 32 32 none)] [VBaseSpec.mk (RecordDecl.mk 4 "V" ⟨false, false, false, 0, "", 0, 0⟩ false 32 32 32 none false false 0 [] [] []) 32 false]).fields = (RecordDecl.mk 3 "B2" ⟨false, false, false, 0, "", 0, 0⟩ true 16 16 8 none false false 0 [] [FieldEntry.mk "b" "int" ⟨false, false, false, 0, "", 0, 0⟩ 64 (FieldKind.scalarType 32 32 none)] []).fields ∧
    (RecordDecl.mk 2 "B1" ⟨false, false, false, 0, "", 0, 0⟩ true 64 16 32 none false false 0 [BaseSpec.mk true (RecordDecl.mk 4 "V" ⟨false, false, false, 0, "", 0, 0⟩ false 32 32 32 none false false 0 [] [] []) 0] [FieldEntry.mk "b" "int" ⟨false, false, false, 0, "", 0, 0⟩ 64 (FieldKind.scalarType 32 32 none)] [VBaseSpec.mk (RecordDecl.mk 4 "V" ⟨false, false, false, 0, "", 0, 0⟩ false 32 32 32 none false false 0 [] [] []) 32 false]).bases.filter (fun b => !b.isVirtual)
      = (RecordDecl.mk 3 "B2" ⟨false, false, false, 0, "", 0, 0⟩ true 16 16 8 none false false 0 [] [FieldEntry.mk "b" "int" ⟨false, false, false, 0, "", 0, 0⟩ 64 (FieldKind.scalarType 32 32 none)] []).bases.filter (fun b => !b.isVirtual) := by
  refine ⟨?_, ?_, rfl, rfl, by simp [RecordDecl.bases, List.filter,
    BaseSpec.isVirtual]⟩
  · obtain ⟨c, hc, hn, hs, ha⟩ := computeStruct_singleBase ⟨64, 64, false⟩
      (RecordDecl.mk 1 "D1" ⟨false, false, false, 0, "", 0, 0⟩ true 64 16 32 (some 2) false false 0 [BaseSpec.mk false (RecordDecl.mk 2 "B1" ⟨false, false, false, 0, "", 0, 0⟩ true 64 16 32 none false false 0 [BaseSpec.mk true (RecordDecl.mk 4 "V" ⟨false, false, false, 0, "", 0, 0⟩ false 32 32 32 none false false 0 [] [] []) 0] [FieldEntry.mk "b" "int" ⟨false, false, false, 0, "", 0, 0⟩ 64 (FieldKind.scalarType 32 32 none)] [VBaseSpec.mk (RecordDecl.mk 4 "V" ⟨false, false, false, 0, "", 0, 0⟩ false 32 32 32 none false false 0 [] [] []) 32 false]) 0] [] [VBaseSpec.mk (RecordDecl.mk 4 "V" ⟨false, false, false, 0, "", 0, 0⟩ false 32 32 32 none false false 0 [] [] []) 32 false]) (BaseSpec.mk false (RecordDecl.mk 2 "B1" ⟨false, false, false, 0, "", 0, 0⟩ true 64 16 32 none false false 0 [BaseSpec.mk true (RecordDecl.mk 4 "V" ⟨false, false, false, 0, "", 0, 0⟩ false 32 32 32 none false false 0 [] [] []) 0] [FieldEntry.mk "b" "int" ⟨false, false, false, 0, "", 0, 0⟩ 64 (FieldKind.scalarType 32 32 none)] [VBaseSpec.mk (RecordDecl.mk 4 "V" ⟨false, false, false, 0, "", 0, 0⟩ false 32 32 32 none false false 0 [] [] []) 32 false]) 0) FileState.empty
      (by simp [nvSorted, RecordDecl.bases, List.filter, BaseSpec.isVirtual])
    refine ⟨c, hc, ?_, ?_, ?_⟩
    · simpa [BaseSpec.decl, RecordDecl.id, RecordDecl.primaryBaseId] using hn
    · simpa [BaseSpec.decl, RecordDecl.nvSize] using hs
    · simpa [BaseSpec.decl, RecordDecl.align] using ha
  · obtain ⟨c, hc, hn, hs, ha⟩ := computeStruct_singleBase ⟨64, 64, false⟩
      (RecordDecl.mk 5 "D2" ⟨false, false, false, 0, "", 0, 0⟩ true 16 16 8 (some 3) false false 0 [BaseSpec.mk false (RecordDecl.mk 3 "B2" ⟨false, false, false, 0, "", 0, 0⟩ true 16 16 8 none false false 0 [] [FieldEntry.mk "b" "int" ⟨false, false, false, 0, "", 0, 0⟩ 64 (FieldKind.scalarType 32 32 none)] []) 0] [] []) (BaseSpec.mk false (RecordDecl.mk 3 "B2" ⟨false, false, false, 0, "", 0, 0⟩ true 16 16 8 none false false 0 [] [FieldEntry.mk "b" "int" ⟨false, false, false, 0, "", 0, 0⟩ 64 (FieldKind.scalarType 32 32 none)] []) 0) FileState.empty
      (by simp [nvSorted, RecordDecl.bases, List.filter, BaseSpec.isVirtual])
    refine ⟨c, hc, ?_, ?_, ?_⟩
    · simpa [BaseSpec.decl, RecordDecl.id, RecordDecl.primaryBaseId] using hn
    · simpa [BaseSpec.decl, RecordDecl.nvSize] using hs
    · simpa [BaseSpec.decl, RecordDecl.align] using ha
